import Mathlib

/-!
Verification development for the Dexcom glucose analytics engine
(`src/mcp_server_dexcom/server.py`).

Modelling conventions:
* Timestamps are modelled as `Nat` minutes on an abstract clock; Python
  `datetime` ordering and subtraction (in minutes) become `Nat`/`Int`
  ordering and subtraction.  `isoformat` is an injective rendering of the
  instant and is modelled by keeping the instant itself.
* Python floats are modelled by exact rationals `ℚ`.  `round(x, 1)` becomes
  `round1` below (round half away from zero differs from Python's banker's
  rounding only at exact ties, which none of the verified properties
  depend on).  `statistics.stdev` needs a square root, which is not
  rational; the models take the float square-root routine as an explicit
  parameter `sq : ℚ → ℚ`, exactly as they take the acquisition client as a
  parameter.
* `int(n * p / 100)` on Python floats equals `n * p / 100` in `Nat`
  division for all list lengths that fit well below 2^46, because the
  rounding error of one float division never crosses an integer boundary
  at that scale; it is modelled by `Nat` division.
* `dict` results become structures; a missing key (e.g. `csv` only for
  csv format) becomes an `Option` field; raising becomes an error
  constructor in `ToolResult`.
-/

namespace Dexcom

/-- Canonical reading: the attributes the analytics code reads from either
a pydexcom reading or a parsed external record.  `mmol_l`,
`trend_direction`, `trend_arrow` are `Option` because external records do
not carry them (`getattr(r, ..., default)` in the source). -/
structure Reading where
  value : Int
  datetime : Nat
  mmol_l : Option ℚ := none
  trend_direction : Option String := none
  trend_arrow : Option String := none
deriving DecidableEq

/-- round(x, 1): one decimal place. -/
def round1 (q : ℚ) : ℚ := (round (q * 10) : ℚ) / 10

/-- count/total*100, the percentage of a count. -/
def pct (c total : Nat) : ℚ := (c : ℚ) / (total : ℚ) * 100

/-- round(count/total*100, 1), the rounded percentage used everywhere. -/
def pct1 (c total : Nat) : ℚ := round1 (pct c total)

/-- min(values) (0 for the empty list, which the callers rule out). -/
def pyMin (l : List Int) : Int :=
  match l with
  | [] => 0
  | x :: xs => xs.foldl min x

/-- max(values) (0 for the empty list, which the callers rule out). -/
def pyMax (l : List Int) : Int :=
  match l with
  | [] => 0
  | x :: xs => xs.foldl max x

/-- Python `lst[:k]` including negative-`k` semantics:
a negative stop keeps all but the last `|k|` elements. -/
def pySliceTo (k : Int) (l : List α) : List α :=
  if k < 0 then l.take (l.length - k.natAbs) else l.take k.toNat

/-- max(1, min(1440, minutes)) clamp used by every acquisition branch. -/
def clampMinutes (minutes : Int) : Int := max 1 (min 1440 minutes)

/-!  ### Reading normalizer (`parse_external_data`)  -/

/-- An externally supplied record: a JSON-ish dict.  `Option` models key
presence (`d["glucose_mg_dl"]`, `d["timestamp"]`). -/
structure ExternalRecord where
  glucose_mg_dl : Option Int
  timestamp : Option String
deriving DecidableEq

/-- The two failure modes of normalizing one record: a missing required
key (Python `KeyError`) or an unparseable timestamp (Python `ValueError`
out of `datetime.fromisoformat`); the spec groups both as
`ValidationError`. -/
inductive ValidationError where
  | missing_field
  | bad_timestamp
deriving DecidableEq

/-- One record of `parse_external_data`:
`ExternalReading(d["glucose_mg_dl"], d["timestamp"])` with
`datetime.fromisoformat(timestamp.replace('Z', '+00:00'))`.
`iso` is the ambient ISO-8601 parser (`datetime.fromisoformat`),
abstracted as a partial function from strings to instants. -/
def parseRecord (iso : String → Option Nat) (d : ExternalRecord) :
    Except ValidationError Reading :=
  match d.glucose_mg_dl with
  | none => .error .missing_field
  | some g =>
    match d.timestamp with
    | none => .error .missing_field
    | some s =>
      match iso (s.replace "Z" "+00:00") with
      | none => .error .bad_timestamp
      | some t => .ok { value := g, datetime := t }

/-- `parse_external_data`: the whole-batch list comprehension; the first
bad record aborts the whole call with its error. -/
def parse_external_data (iso : String → Option Nat)
    (data : List ExternalRecord) : Except ValidationError (List Reading) :=
  data.mapM (parseRecord iso)

/-- A record is malformed when a required field is absent or its
timestamp does not parse. -/
def recordBad (iso : String → Option Nat) (d : ExternalRecord) : Prop :=
  d.glucose_mg_dl = none ∨ d.timestamp = none ∨
    ∃ s, d.timestamp = some s ∧ iso (s.replace "Z" "+00:00") = none

instance (iso : String → Option Nat) (d : ExternalRecord) :
    Decidable (recordBad iso d) := by
  unfold recordBad
  cases d.glucose_mg_dl <;> cases h : d.timestamp <;> simp [h] <;> infer_instance

/-!  ### Generic tool-result shape

Every analysis operation returns either a populated report, the tagged
`no_data` dict, or propagates the validation failure raised while parsing
an external batch.  -/

inductive ToolResult (α : Type) where
  | validation_error (e : ValidationError)
  | no_data (message : String)
  | ok (r : α)
deriving DecidableEq

/-- Truthiness of the optional `data` argument (`if data:`): `None` and
the empty list are falsy. -/
def dataTruthy : Option (List ExternalRecord) → Bool
  | none => false
  | some l => !l.isEmpty

/-!  ### Statistics engine (`get_statistics`)  -/

/-- count of values v with low <= v <= high. -/
def countInRange (values : List Int) (low high : Int) : Nat :=
  values.countP (fun v => decide (low ≤ v ∧ v ≤ high))

/-- count of values v with v < bound. -/
def countBelow (values : List Int) (bound : Int) : Nat :=
  values.countP (fun v => decide (v < bound))

/-- count of values v with v > bound. -/
def countAbove (values : List Int) (bound : Int) : Nat :=
  values.countP (fun v => decide (v > bound))

/-- statistics.mean of an integer list, as an exact rational. -/
def listMean (values : List Int) : ℚ := (values.sum : ℚ) / (values.length : ℚ)

/-- Sample variance sum((x-mean)^2)/(n-1), the quantity under the square
root of `statistics.stdev`. -/
def sampleVar (values : List Int) : ℚ :=
  (values.map (fun v => ((v : ℚ) - listMean values) ^ 2)).sum / ((values.length : ℚ) - 1)

/-- `sd = stdev(values) if len(values) > 1 else 0.0`; `sq` is the ambient
float square-root routine. -/
def stdevOf (sq : ℚ → ℚ) (values : List Int) : ℚ :=
  if values.length > 1 then sq (sampleVar values) else 0

/-- `cv = (sd / avg * 100) if avg > 0 else 0.0`. -/
def cvOf (sd avg : ℚ) : ℚ := if avg > 0 then sd / avg * 100 else 0

/-- The populated result dict of `get_statistics`. -/
structure StatisticsReport where
  reading_count : Nat
  mean_mg_dl : ℚ
  mean_mmol_l : ℚ
  std_dev : ℚ
  cv_percent : ℚ
  min_mg_dl : Int
  max_mg_dl : Int
  time_in_range_percent : ℚ
  time_below_percent : ℚ
  time_above_percent : ℚ
  time_very_low_percent : ℚ
  time_very_high_percent : ℚ
  thresholds_low : Int
  thresholds_high : Int
deriving DecidableEq

/-- Lines 140-167 of the source: the statistics computed from the value
list (the caller guarantees it non-empty). -/
def statistics_of (sq : ℚ → ℚ) (values : List Int) (low high : Int) :
    StatisticsReport :=
  let avg := listMean values
  let sd := stdevOf sq values
  let total := values.length
  { reading_count := total
    mean_mg_dl := round1 avg
    mean_mmol_l := round1 (avg / 18)
    std_dev := round1 sd
    cv_percent := round1 (cvOf sd avg)
    min_mg_dl := pyMin values
    max_mg_dl := pyMax values
    time_in_range_percent := pct1 (countInRange values low high) total
    time_below_percent := pct1 (countBelow values low) total
    time_above_percent := pct1 (countAbove values high) total
    time_very_low_percent := pct1 (countBelow values 54) total
    time_very_high_percent := pct1 (countAbove values 250) total
    thresholds_low := low
    thresholds_high := high }

/-!  ### AGP report generator (`get_agp_report`)  -/

/-- Local hour of a reading (`r.datetime.hour`) on the minute clock. -/
def Reading.hour (r : Reading) : Nat := r.datetime / 60 % 24

/-- Nested `percentile` helper of `get_agp_report`: nearest-rank on the
ascending sort; `int(len * p / 100)` is exact `Nat` division at these
sizes, clamped to `len - 1`. -/
def percentile (values : List Int) (p : Nat) : Option Int :=
  if values.isEmpty then none
  else
    let sorted_vals := values.mergeSort (fun a b => a ≤ b)
    let idx := min (sorted_vals.length * p / 100) (sorted_vals.length - 1)
    some (sorted_vals.getD idx 0)

/-- `hourly_values[hour]`: the glucose values of the readings whose local
hour is `hour`, in input order. -/
def hourValues (readings : List Reading) (hour : Nat) : List Int :=
  (readings.filter (fun r => r.hour == hour)).map (·.value)

/-- One row of the hourly AGP profile. -/
structure HourEntry where
  hour : Nat
  p5 : Option Int
  p25 : Option Int
  p50 : Option Int
  p75 : Option Int
  p95 : Option Int
  readings_count : Nat
deriving DecidableEq

/-- The per-hour profile rows of `get_agp_report` (hours 0-23 in order;
an hour with no data reports all percentiles as `None` and count 0). -/
def hourly_profile (readings : List Reading) : List HourEntry :=
  (List.range 24).map (fun hour =>
    let values := hourValues readings hour
    if values.isEmpty then
      { hour := hour, p5 := none, p25 := none, p50 := none, p75 := none,
        p95 := none, readings_count := 0 }
    else
      { hour := hour
        p5 := percentile values 5
        p25 := percentile values 25
        p50 := percentile values 50
        p75 := percentile values 75
        p95 := percentile values 95
        readings_count := values.length })

/-- The five-band distribution of `get_agp_report` (fixed 70/180/54/250
boundaries; the two middle bands are count differences). -/
structure TimeInRanges where
  very_low_below_54 : ℚ
  low_54_70 : ℚ
  target_70_180 : ℚ
  high_180_250 : ℚ
  very_high_above_250 : ℚ
deriving DecidableEq

/-- Lines 847-872: the `time_in_ranges` dict from the whole value list. -/
def time_in_ranges_of (values : List Int) : TimeInRanges :=
  let total := values.length
  let in_range := countInRange values 70 180
  let below_70 := countBelow values 70
  let below_54 := countBelow values 54
  let above_180 := countAbove values 180
  let above_250 := countAbove values 250
  { very_low_below_54 := pct1 below_54 total
    low_54_70 := round1 (((below_70 : ℚ) - (below_54 : ℚ)) / (total : ℚ) * 100)
    target_70_180 := pct1 in_range total
    high_180_250 := round1 (((above_180 : ℚ) - (above_250 : ℚ)) / (total : ℚ) * 100)
    very_high_above_250 := pct1 above_250 total }

/-- The whole-span metrics dict of the AGP report. -/
structure GlucoseMetrics where
  mean_mg_dl : ℚ
  gmi_percent : ℚ
  cv_percent : ℚ
  std_dev : ℚ
deriving DecidableEq

/-- The clinical-target comparison dict (the `*_target` strings are
literal constants). -/
structure ClinicalTargets where
  tir_target : String
  tir_actual : ℚ
  tbr_target : String
  tbr_actual : ℚ
  cv_target : String
  cv_actual : ℚ
deriving DecidableEq

/-- The populated result of `get_agp_report`. -/
structure AGPReport where
  report_type : String
  period_minutes : Int
  readings_analyzed : Nat
  glucose_metrics : GlucoseMetrics
  time_in_ranges : TimeInRanges
  clinical_targets : ClinicalTargets
  hourly_profile : List HourEntry
deriving DecidableEq

/-- Lines 806-884: body of `get_agp_report` on a non-empty reading list.
Note `avg` here is `sum/len` and `sd` is `stdev` for `len > 1` else the
int 0, exactly as in the source. -/
def agp_report_of (sq : ℚ → ℚ) (readings : List Reading) (minutes : Int) :
    AGPReport :=
  let all_values := readings.map (·.value)
  let avg := listMean all_values
  let sd := stdevOf sq all_values
  let cv := cvOf sd avg
  let gmi := (3.31 : ℚ) + (0.02392 : ℚ) * avg
  let total := all_values.length
  { report_type := "ambulatory_glucose_profile"
    period_minutes := minutes
    readings_analyzed := total
    glucose_metrics :=
      { mean_mg_dl := round1 avg, gmi_percent := round1 gmi
        cv_percent := round1 cv, std_dev := round1 sd }
    time_in_ranges := time_in_ranges_of all_values
    clinical_targets :=
      { tir_target := ">70%", tir_actual := pct1 (countInRange all_values 70 180) total
        tbr_target := "<4%", tbr_actual := pct1 (countBelow all_values 70) total
        cv_target := "<36%", cv_actual := round1 cv }
    hourly_profile := hourly_profile readings }

/-!  ### Episode detector (`detect_episodes`)  -/

/-- Episode classification labels. -/
inductive EType where
  | low
  | very_low
  | high
  | very_high
deriving DecidableEq

/-- `episode_type in ("low", "very_low")`: the low direction. -/
def EType.lowSide : EType → Bool
  | .low => true
  | .very_low => true
  | .high => false
  | .very_high => false

/-- The per-reading classification of `detect_episodes` (lines 324-333):
an `elif` chain checking `< 54`, `< low`, `> 250`, `> high` in that
order; `none` is in-range. -/
def detect_classify (low high v : Int) : Option EType :=
  if v < 54 then some .very_low
  else if v < low then some .low
  else if v > 250 then some .very_high
  else if v > high then some .high
  else none

/-- Which side of range a reading falls on for `detect_episodes`
(`some true` = low side, `some false` = high side, `none` = in range). -/
def detectSide (low high v : Int) : Option Bool :=
  (detect_classify low high v).map EType.lowSide

/-- The episode dict built by the `detect_episodes` loop.  The source key
`end` is a Lean keyword and is rendered `stop`. -/
structure Episode where
  type : EType
  start : Nat
  stop : Nat
  values : List Int
  ongoing : Bool := false
deriving DecidableEq

/-- The `for reading in sorted_readings` loop of `detect_episodes`
(lines 318-360), as a recursion over the remaining readings carrying the
`episodes` accumulator and the open `current_episode`.  After the loop an
open episode is flagged `ongoing` and emitted. -/
def detect_go (low high : Int) :
    List Reading → List Episode → Option Episode → List Episode
  | [], episodes, none => episodes
  | [], episodes, some cur => episodes ++ [{ cur with ongoing := true }]
  | r :: rest, episodes, cur =>
    match detect_classify low high r.value with
    | some ty =>
      match cur with
      | some c =>
        if ty.lowSide = c.type.lowSide then
          detect_go low high rest episodes
            (some { c with stop := r.datetime,
                           values := c.values ++ [r.value],
                           type := if ty = .very_low ∨ ty = .very_high then ty
                                   else c.type })
        else
          detect_go low high rest (episodes ++ [c])
            (some { type := ty, start := r.datetime, stop := r.datetime,
                    values := [r.value] })
      | none =>
        detect_go low high rest episodes
          (some { type := ty, start := r.datetime, stop := r.datetime,
                  values := [r.value] })
    | none =>
      match cur with
      | some c => detect_go low high rest (episodes ++ [c]) none
      | none => detect_go low high rest episodes none

/-- `detect_episodes`' segmentation: run the loop on the readings sorted
ascending by timestamp (`sorted(readings, key=lambda r: r.datetime)`;
Python's sort is stable, as is `mergeSort`). -/
def detect_segments (low high : Int) (readings : List Reading) : List Episode :=
  detect_go low high
    (readings.mergeSort (fun a b => a.datetime ≤ b.datetime)) [] none

/-- One formatted episode of the `detect_episodes` result (lines
362-376). -/
structure FormattedEpisode where
  type : EType
  start : Nat
  stop : Nat
  duration_minutes : Nat
  extreme_value : Int
  mean_value : ℚ
  ongoing : Bool
deriving DecidableEq

/-- Formatting one episode dict: duration floored at 5 minutes, extreme
is min for low-direction and max for high-direction. -/
def format_episode (ep : Episode) : FormattedEpisode :=
  { type := ep.type
    start := ep.start
    stop := ep.stop
    duration_minutes := max (ep.stop - ep.start) 5
    extreme_value := if ep.type.lowSide then pyMin ep.values else pyMax ep.values
    mean_value := round1 (listMean ep.values)
    ongoing := ep.ongoing }

/-- The summary dict of `detect_episodes`. -/
structure EpisodesSummary where
  total_episodes : Nat
  low_episodes : Nat
  high_episodes : Nat
  total_low_minutes : Nat
  total_high_minutes : Nat
  severe_lows : Nat
  severe_highs : Nat
deriving DecidableEq

/-- The populated result of `detect_episodes`. -/
structure EpisodesReport where
  readings_analyzed : Nat
  episodes : List FormattedEpisode
  summary : EpisodesSummary
deriving DecidableEq

/-- Lines 362-393: formatting and summarising the detected episodes. -/
def episodes_report_of (low high : Int) (readings : List Reading) :
    EpisodesReport :=
  let formatted := (detect_segments low high readings).map format_episode
  let low_eps := formatted.filter (fun e => e.type.lowSide)
  let high_eps := formatted.filter (fun e => !e.type.lowSide)
  { readings_analyzed := readings.length
    episodes := formatted
    summary :=
      { total_episodes := formatted.length
        low_episodes := low_eps.length
        high_episodes := high_eps.length
        total_low_minutes := (low_eps.map (·.duration_minutes)).sum
        total_high_minutes := (high_eps.map (·.duration_minutes)).sum
        severe_lows := low_eps.countP (fun e => e.type == .very_low)
        severe_highs := high_eps.countP (fun e => e.type == .very_high) } }

/-!  ### Episode analyzer (`get_episode_details`)

`get_episode_details` re-detects episodes with its own loop over
`points = sorted([(r.value, r.datetime) for r in readings], key=x[1])`,
tracking the list index `i`; the scan is modelled over `points.enum`
(each element is `(index, (value, datetime))`).  -/

/-- The inner-loop severity escalation (lines 451-454): each collected
value may raise the episode type to `very_low` (`v < 54`) or `very_high`
(`v > 250`). -/
def escalate (ty : EType) (v : Int) : EType :=
  if v < 54 then .very_low else if v > 250 then .very_high else ty

/-- The episode dict of `get_episode_details` (line 457-463): the run of
collected enumerated points, the final type, and the direction flag.
`start_idx`/`end_idx` are the indices of the first/last member. -/
structure DetailsEpisode where
  type : EType
  is_low : Bool
  values : List (Nat × (Int × Nat))
deriving DecidableEq

/-- `ep["start_idx"]`. -/
def DetailsEpisode.start_idx (e : DetailsEpisode) : Nat :=
  (e.values.head?.map (·.1)).getD 0

/-- `ep["end_idx"]` (`i - 1` after the inner loop: the last member's
index). -/
def DetailsEpisode.end_idx (e : DetailsEpisode) : Nat :=
  (e.values.getLast?.map (·.1)).getD 0

/-- The `while i < len(points)` segmentation loop of
`get_episode_details` (lines 425-463).  An out-of-range start opens an
episode whose members are the maximal following run on the same side
(the inner `while` collects while `v < low` for a low episode, `v > high`
for a high one, escalating severity per member); an in-range point is
skipped. -/
def details_segments (low high : Int) :
    List (Nat × (Int × Nat)) → List DetailsEpisode
  | [] => []
  | ip :: rest =>
    if ip.2.1 < low then
      let run := (ip :: rest).takeWhile (fun q => q.2.1 < low)
      { type := run.foldl (fun ty q => escalate ty q.2.1)
                  (if ip.2.1 < 54 then .very_low else .low)
        is_low := true
        values := run }
        :: details_segments low high ((ip :: rest).dropWhile (fun q => q.2.1 < low))
    else if ip.2.1 > high then
      let run := (ip :: rest).takeWhile (fun q => q.2.1 > high)
      { type := run.foldl (fun ty q => escalate ty q.2.1)
                  (if ip.2.1 > 250 then .very_high else .high)
        is_low := false
        values := run }
        :: details_segments low high ((ip :: rest).dropWhile (fun q => q.2.1 > high))
    else details_segments low high rest
termination_by l => l.length
decreasing_by
  · simp only [List.dropWhile_cons]
    split
    · have h5 : List.Sublist (rest.dropWhile (fun q => decide (q.2.1 < low))) rest :=
        List.dropWhile_sublist _
      have := h5.length_le
      simp only [List.length_cons]
      omega
    · simp_all
  · simp only [List.dropWhile_cons]
    split
    · have h5 : List.Sublist (rest.dropWhile (fun q => decide (q.2.1 > high))) rest :=
        List.dropWhile_sublist _
      have := h5.length_le
      simp only [List.length_cons]
      omega
    · simp_all
  · simp [Nat.lt_succ_self]

/-- One detailed episode record of `get_episode_details` (lines
528-541).  `overcorrection` holds the pair (type label, value). -/
structure EpisodeDetail where
  type : EType
  start : Nat
  stop : Nat
  duration_minutes : Nat
  extreme_value : Int
  extreme_time : Nat
  rate_to_extreme_per_5min : Option ℚ
  rate_from_extreme_per_5min : Option ℚ
  recovery_minutes : Option Nat
  recovery_rate_per_5min : Option ℚ
  overcorrection : Option (String × Int)
  leadup_values : List Int
deriving DecidableEq

/-- Lines 466-541: the per-episode analysis (extremum, rates, lead-up,
recovery window, overcorrection). -/
def details_analyze (low high : Int) (points : List (Int × Nat))
    (ep : DetailsEpisode) : EpisodeDetail :=
  let values := ep.values
  let glucose_values := values.map (·.2.1)
  let start_time := (values.head?.map (·.2.2)).getD 0
  let end_time := (values.getLast?.map (·.2.2)).getD 0
  let extreme := if ep.is_low then pyMin glucose_values else pyMax glucose_values
  let extreme_idx := glucose_values.findIdx (fun v => v == extreme)
  let extreme_time := ((values[extreme_idx]?).map (·.2.2)).getD 0
  let lo := ep.start_idx - 6
  let leadup := (points.drop lo).take (ep.start_idx - lo)
  let rate_to_extreme : Option ℚ :=
    if extreme_idx > 0 then
      let t_diff : Int := (extreme_time : Int) - (start_time : Int)
      if t_diff > 0 then
        some (round1 (((extreme - (glucose_values.head?.getD 0) : Int) : ℚ)
          / (t_diff : ℚ) * 5))
      else none
    else none
  let rate_from_extreme : Option ℚ :=
    if extreme_idx < values.length - 1 then
      let t_diff : Int := (end_time : Int) - (extreme_time : Int)
      if t_diff > 0 then
        some (round1 ((((glucose_values.getLast?.getD 0) - extreme : Int) : ℚ)
          / (t_diff : ℚ) * 5))
      else none
    else none
  let recovery := (points.drop (ep.end_idx + 1)).take 6
  let recovery_minutes :=
    (recovery.find? (fun q => decide (low ≤ q.1 ∧ q.1 ≤ high))).map
      (fun q => q.2 - end_time)
  let recovery_rate : Option ℚ :=
    if recovery.isEmpty then none
    else
      let lastq := recovery.getLast?.getD (0, 0)
      let t_diff : Int := (lastq.2 : Int) - (end_time : Int)
      if t_diff > 0 then
        some (round1 (((lastq.1 - (glucose_values.getLast?.getD 0) : Int) : ℚ)
          / (t_diff : ℚ) * 5))
      else none
  let overcorrection : Option (String × Int) :=
    if recovery.isEmpty then none
    else
      let recovery_values := recovery.map (·.1)
      if ep.is_low ∧ pyMax recovery_values > high then
        some ("rebound_high", pyMax recovery_values)
      else if ¬ep.is_low ∧ pyMin recovery_values < low then
        some ("overcorrect_low", pyMin recovery_values)
      else none
  { type := ep.type
    start := start_time
    stop := end_time
    duration_minutes := max (end_time - start_time) 5
    extreme_value := extreme
    extreme_time := extreme_time
    rate_to_extreme_per_5min := rate_to_extreme
    rate_from_extreme_per_5min := rate_from_extreme
    recovery_minutes := recovery_minutes
    recovery_rate_per_5min := recovery_rate
    overcorrection := overcorrection
    leadup_values := leadup.map (·.1) }

/-- The populated result of `get_episode_details`. -/
structure DetailsReport where
  readings_analyzed : Nat
  episodes_analyzed : Nat
  episodes : List EpisodeDetail
deriving DecidableEq

/-- The sorted `(value, datetime)` point list of `get_episode_details`. -/
def detailsPoints (readings : List Reading) : List (Int × Nat) :=
  (readings.map (fun r => (r.value, r.datetime))).mergeSort (fun a b => a.2 ≤ b.2)

/-- Body of `get_episode_details` on a non-empty reading list. -/
def details_report_of (low high : Int) (readings : List Reading) :
    DetailsReport :=
  let points := detailsPoints readings
  let eps := details_segments low high points.enum
  let detailed := eps.map (details_analyze low high points)
  { readings_analyzed := points.length
    episodes_analyzed := detailed.length
    episodes := detailed }

/-!  ### Time block analyzer (`analyze_time_blocks`)  -/

/-- The stats dict for one block with at least one reading. -/
structure BlockStats where
  time_range : String
  readings_count : Nat
  average_mg_dl : ℚ
  min_mg_dl : Int
  max_mg_dl : Int
  time_in_range_percent : ℚ
  time_below_percent : ℚ
  time_above_percent : ℚ
  assessment : String
deriving DecidableEq

/-- One analyzed block: either the `no_data` placeholder or stats. -/
inductive BlockEntry where
  | nodata (time_range : String)
  | stats (s : BlockStats)
deriving DecidableEq

/-- Assessment label from the block's TIR (lines 633-640). -/
def assessmentOf (tir : ℚ) : String :=
  if tir ≥ 80 then "excellent"
  else if tir ≥ 70 then "good"
  else if tir ≥ 50 then "needs attention"
  else "problematic"

/-- Block membership by local hour (lines 587-598). -/
def blockValues (readings : List Reading) (lo hi : Nat) : List Int :=
  (readings.filter (fun r => decide (lo ≤ r.hour ∧ r.hour < hi))).map (·.value)

/-- Analysis of one block's value list (lines 607-652). -/
def analyzeBlock (low high : Int) (time_range : String) (values : List Int) :
    BlockEntry :=
  if values.isEmpty then .nodata time_range
  else
    let tir := pct1 (countInRange values low high) values.length
    .stats
      { time_range := time_range
        readings_count := values.length
        average_mg_dl := round1 (listMean values)
        min_mg_dl := pyMin values
        max_mg_dl := pyMax values
        time_in_range_percent := tir
        time_below_percent := pct1 (countBelow values low) values.length
        time_above_percent := pct1 (countAbove values high) values.length
        assessment := assessmentOf tir }

/-- TIR of a non-empty block, for the best/worst scan. -/
def blockTir (low high : Int) (values : List Int) : ℚ :=
  pct1 (countInRange values low high) values.length

/-- The best/worst scan state: `(best_block, worst_block, best_tir,
worst_tir)` starting at `(None, None, -1, 101)`; empty blocks are
skipped; strict `>` / `<` keep the first block on ties (iteration order
overnight, morning, afternoon, evening). -/
def bestWorstStep (low high : Int)
    (st : Option String × Option String × ℚ × ℚ)
    (blk : String × List Int) : Option String × Option String × ℚ × ℚ :=
  if blk.2.isEmpty then st
  else
    let tir := blockTir low high blk.2
    let st1 := if tir > st.2.2.1 then (some blk.1, st.2.1, tir, st.2.2.2) else st
    if tir < st1.2.2.2 then (st1.1, some blk.1, st1.2.2.1, tir) else st1

/-- The populated result of `analyze_time_blocks`. -/
structure TimeBlocksReport where
  readings_analyzed : Nat
  overnight : BlockEntry
  morning : BlockEntry
  afternoon : BlockEntry
  evening : BlockEntry
  best_block : Option String
  worst_block : Option String
  insight : Option String
deriving DecidableEq

/-- Body of `analyze_time_blocks` on a non-empty reading list. -/
def time_blocks_report_of (low high : Int) (readings : List Reading) :
    TimeBlocksReport :=
  let ov := blockValues readings 0 6
  let mo := blockValues readings 6 12
  let af := blockValues readings 12 18
  let ev := blockValues readings 18 24
  let st := [("overnight", ov), ("morning", mo), ("afternoon", af),
             ("evening", ev)].foldl (bestWorstStep low high)
              (none, none, -1, 101)
  { readings_analyzed := readings.length
    overnight := analyzeBlock low high "00:00-06:00" ov
    morning := analyzeBlock low high "06:00-12:00" mo
    afternoon := analyzeBlock low high "12:00-18:00" af
    evening := analyzeBlock low high "18:00-24:00" ev
    best_block := st.1
    worst_block := st.2.1
    insight :=
      match st.1, st.2.1 with
      | some b, some w =>
        some ("Best control during " ++ b ++ " (" ++ toString st.2.2.1 ++
          "% TIR), worst during " ++ w ++ " (" ++ toString st.2.2.2 ++ "% TIR)")
      | _, _ => none }

/-!  ### Reading rows (`get_glucose_readings`, `export_data`)  -/

/-- One rendered reading row: `glucose_mmol_l` falls back to
`round(value/18.0, 1)` when the reading does not carry `mmol_l`
(`getattr` with default); the instant stands for its `isoformat`. -/
structure ReadingRow where
  glucose_mg_dl : Int
  glucose_mmol_l : ℚ
  trend : Option String
  trend_arrow : Option String
  timestamp : Nat
deriving DecidableEq

/-- Row construction shared by `get_glucose_readings` and
`export_data`. -/
def readingRow (r : Reading) : ReadingRow :=
  { glucose_mg_dl := r.value
    glucose_mmol_l := r.mmol_l.getD (round1 ((r.value : ℚ) / 18))
    trend := r.trend_direction
    trend_arrow := r.trend_arrow
    timestamp := r.datetime }

/-- The populated result of `get_glucose_readings`. -/
structure ReadingsReport where
  count : Nat
  readings : List ReadingRow
deriving DecidableEq

/-- The populated result of `export_data`;  `csv` is present only for
the csv format, and `export_timestamp` is `datetime.now()` at the moment
of the call. -/
structure ExportReport where
  export_timestamp : Nat
  readings_count : Nat
  period_minutes : Option Int
  oldest_reading : Option Nat
  newest_reading : Option Nat
  format : String
  readings : List ReadingRow
  csv : Option String
deriving DecidableEq

/-- One csv line (lines 775-776); Python renders a missing trend as the
string `None`. -/
def csvLine (r : ReadingRow) : String :=
  toString r.timestamp ++ "," ++ toString r.glucose_mg_dl ++ "," ++
    toString r.glucose_mmol_l ++ "," ++ (r.trend.getD "None") ++ "," ++
    (r.trend_arrow.getD "None")

/-- The csv rendering (lines 772-777). -/
def csvOf (records : List ReadingRow) : String :=
  String.intercalate "\n"
    ("timestamp,glucose_mg_dl,glucose_mmol_l,trend,trend_arrow"
      :: records.map csvLine)

/-!  ### The seven operations

Each operation is a function of the ambient environment — `iso` the
ISO-8601 parser, `sq` the float square root, `now` the wall clock
(`datetime.now()`), `client` the Dexcom acquisition collaborator
(`client.get_glucose_readings(minutes, max_count)`) — and of its call
arguments.  `if data:` dispatch: a truthy `data` is parsed and the
client is never consulted; otherwise the clamped acquisition runs.  -/

/-- The shared `if data: ... else: minutes = clamp; fetch` resolution;
`max_count` is what the operation passes to the client (288 for every
analysis operation). -/
def resolveData (iso : String → Option Nat) (client : Int → Int → List Reading)
    (minutes max_count : Int) (data : Option (List ExternalRecord)) :
    Except ValidationError (List Reading) :=
  if dataTruthy data then parse_external_data iso (data.getD [])
  else .ok (client (clampMinutes minutes) max_count)

/-- `get_glucose_readings` (lines 66-109).  In the data branch the batch
is sorted most-recent-first and cut by Python slicing `[:max_count]`
without clamping; in the acquisition branch both arguments are
clamped. -/
def get_glucose_readings (iso : String → Option Nat) (now : Nat)
    (client : Int → Int → List Reading) (minutes max_count : Int)
    (data : Option (List ExternalRecord)) : ToolResult ReadingsReport :=
  let finish : List Reading → ToolResult ReadingsReport := fun readings =>
    if readings.isEmpty then .no_data "No readings found"
    else .ok { count := readings.length, readings := readings.map readingRow }
  if dataTruthy data then
    match parse_external_data iso (data.getD []) with
    | .error e => .validation_error e
    | .ok rs =>
      finish (pySliceTo max_count
        (rs.mergeSort (fun a b => b.datetime ≤ a.datetime)))
  else
    finish (client (clampMinutes minutes) (max 1 (min 288 max_count)))

/-- `get_statistics` (lines 111-167). -/
def get_statistics (iso : String → Option Nat) (sq : ℚ → ℚ) (now : Nat)
    (client : Int → Int → List Reading) (minutes low high : Int)
    (data : Option (List ExternalRecord)) : ToolResult StatisticsReport :=
  match resolveData iso client minutes 288 data with
  | .error e => .validation_error e
  | .ok readings =>
    if readings.isEmpty then .no_data "No readings found"
    else .ok (statistics_of sq (readings.map (·.value)) low high)

/-- `detect_episodes` (lines 289-393). -/
def detect_episodes (iso : String → Option Nat) (now : Nat)
    (client : Int → Int → List Reading) (minutes low high : Int)
    (data : Option (List ExternalRecord)) : ToolResult EpisodesReport :=
  match resolveData iso client minutes 288 data with
  | .error e => .validation_error e
  | .ok readings =>
    if readings.isEmpty then .no_data "No readings available"
    else .ok (episodes_report_of low high readings)

/-- `get_episode_details` (lines 395-547). -/
def get_episode_details (iso : String → Option Nat) (now : Nat)
    (client : Int → Int → List Reading) (minutes low high : Int)
    (data : Option (List ExternalRecord)) : ToolResult DetailsReport :=
  match resolveData iso client minutes 288 data with
  | .error e => .validation_error e
  | .ok readings =>
    if readings.isEmpty then .no_data "No readings available"
    else .ok (details_report_of low high readings)

/-- `analyze_time_blocks` (lines 549-660). -/
def analyze_time_blocks (iso : String → Option Nat) (now : Nat)
    (client : Int → Int → List Reading) (minutes low high : Int)
    (data : Option (List ExternalRecord)) : ToolResult TimeBlocksReport :=
  match resolveData iso client minutes 288 data with
  | .error e => .validation_error e
  | .ok readings =>
    if readings.isEmpty then .no_data "No readings available"
    else .ok (time_blocks_report_of low high readings)

/-- `export_data` (lines 721-779).  `export_timestamp` is
`datetime.now().isoformat()`: the wall clock at the moment of the
call. -/
def export_data (iso : String → Option Nat) (now : Nat)
    (client : Int → Int → List Reading) (minutes : Int) (format : String)
    (data : Option (List ExternalRecord)) : ToolResult ExportReport :=
  match resolveData iso client minutes 288 data with
  | .error e => .validation_error e
  | .ok readings =>
    if readings.isEmpty then .no_data "No readings to export"
    else
      let records := readings.map readingRow
      .ok { export_timestamp := now
            readings_count := records.length
            period_minutes :=
              if dataTruthy data then none else some (clampMinutes minutes)
            oldest_reading := (records.getLast?).map (·.timestamp)
            newest_reading := (records.head?).map (·.timestamp)
            format := format
            readings := records
            csv := if format == "csv" then some (csvOf records) else none }

/-- `get_agp_report` (lines 781-884); `period_minutes` in the report is
the clamped value only when acquisition ran. -/
def get_agp_report (iso : String → Option Nat) (sq : ℚ → ℚ) (now : Nat)
    (client : Int → Int → List Reading) (minutes : Int)
    (data : Option (List ExternalRecord)) : ToolResult AGPReport :=
  match resolveData iso client minutes 288 data with
  | .error e => .validation_error e
  | .ok readings =>
    if readings.isEmpty then .no_data "No readings available"
    else .ok (agp_report_of sq readings
      (if dataTruthy data then minutes else clampMinutes minutes))

/-- All fields of an export result except the wall-clock
`export_timestamp`. -/
def exportCore (r : ExportReport) :
    Nat × Option Int × Option Nat × Option Nat × String × List ReadingRow ×
      Option String :=
  (r.readings_count, r.period_minutes, r.oldest_reading, r.newest_reading,
    r.format, r.readings, r.csv)

/-!  ### Canonical same-side run decomposition

Both episode scanners group maximal runs of consecutive same-side
out-of-range elements.  `chunksAux s l oc` walks `l` with the currently
open run `oc` (side, members so far) and emits the closed runs; it is
the common reference shape both loops are proved equal to.  -/

/-- Maximal-run decomposition of a list along a side function `s`
(`some true` = low side, `some false` = high side, `none` = in range). -/
def chunksAux (s : α → Option Bool) :
    List α → Option (Bool × List α) → List (Bool × List α)
  | [], none => []
  | [], some c => [c]
  | p :: rest, none =>
    match s p with
    | none => chunksAux s rest none
    | some b => chunksAux s rest (some (b, [p]))
  | p :: rest, some (b, run) =>
    match s p with
    | none => (b, run) :: chunksAux s rest none
    | some b2 =>
      if b2 = b then chunksAux s rest (some (b, run ++ [p]))
      else (b, run) :: chunksAux s rest (some (b2, [p]))

/-- The type of a completed run: the direction's label, escalated to the
severe variant when any member crosses the fixed 54/250 bound. -/
def runType (b : Bool) (vals : List Int) : EType :=
  if b then (if vals.any (fun v => decide (v < 54)) then .very_low else .low)
  else (if vals.any (fun v => decide (v > 250)) then .very_high else .high)

/-- The episode a completed `Reading` run denotes. -/
def chunkEpisode (c : Bool × List Reading) : Episode :=
  { type := runType c.1 (c.2.map (·.value))
    start := (c.2.head?.map (·.datetime)).getD 0
    stop := (c.2.getLast?.map (·.datetime)).getD 0
    values := c.2.map (·.value)
    ongoing := false }

/-- The comparable core of a `detect_episodes` episode: type, start,
end, member values (everything but the `ongoing` flag). -/
def Episode.core (e : Episode) : EType × Nat × Nat × List Int :=
  (e.type, e.start, e.stop, e.values)

/-- The comparable core of a `get_episode_details` episode: type, start
time, end time, member values. -/
def DetailsEpisode.core (e : DetailsEpisode) : EType × Nat × Nat × List Int :=
  (e.type, (e.values.head?.map (·.2.2)).getD 0,
    (e.values.getLast?.map (·.2.2)).getD 0, e.values.map (·.2.1))

/-- Apply a projection under a `ToolResult`, keeping the tag. -/
def ToolResult.core (f : α → β) : ToolResult α → ToolResult β
  | .validation_error e => .validation_error e
  | .no_data m => .no_data m
  | .ok r => .ok (f r)

/-- Modelled from the spec (section 4.2): the disjoint band
`[urgent_low, low)` percentage that the spec says `get_statistics`
reports as its second band (`urgent_low` fixed at 54). -/
def specBandLowPct (values : List Int) (low : Int) : ℚ :=
  pct1 (values.countP (fun v => decide (54 ≤ v ∧ v < low))) values.length

/-- Modelled from the spec (section 4.2): the disjoint band
`(high, urgent_high]` percentage that the spec says `get_statistics`
reports as its fourth band (`urgent_high` fixed at 250). -/
def specBandHighPct (values : List Int) (high : Int) : ℚ :=
  pct1 (values.countP (fun v => decide (high < v ∧ v ≤ 250))) values.length

/-!  ## Theorems

Helper lemmas first, then one theorem per claim (with its witness or
counterexample where required).  -/

theorem round_q_mono {x y : ℚ} (h : x ≤ y) : round x ≤ round y := by
  rw [round_eq, round_eq]
  exact Int.floor_le_floor (by linarith)

theorem round1_nonneg {q : ℚ} (h : 0 ≤ q) : 0 ≤ round1 q := by
  unfold round1
  have h0 : (0 : ℤ) ≤ round (q * 10) := by
    have := @round_q_mono 0 (q * 10) (by nlinarith)
    simpa using this
  have : (0 : ℚ) ≤ (round (q * 10) : ℚ) := by exact_mod_cast h0
  linarith

theorem round1_le_100 {q : ℚ} (h : q ≤ 100) : round1 q ≤ 100 := by
  unfold round1
  have h0 : round (q * 10) ≤ round (1000 : ℚ) := round_q_mono (by linarith)
  have h1 : round (1000 : ℚ) = 1000 := by
    norm_num [round_eq]
  rw [h1] at h0
  have : ((round (q * 10) : ℤ) : ℚ) ≤ 1000 := by exact_mod_cast h0
  linarith

theorem pct_nonneg (c total : Nat) : 0 ≤ pct c total := by
  unfold pct
  positivity

theorem pct_le_100 {c total : Nat} (h : c ≤ total) (ht : 0 < total) :
    pct c total ≤ 100 := by
  unfold pct
  rw [div_mul_eq_mul_div, div_le_iff₀ (by exact_mod_cast ht)]
  have : (c : ℚ) ≤ (total : ℚ) := by exact_mod_cast h
  nlinarith

theorem pct1_nonneg (c total : Nat) : 0 ≤ pct1 c total :=
  round1_nonneg (pct_nonneg c total)

theorem pct1_le_100 {c total : Nat} (h : c ≤ total) (ht : 0 < total) :
    pct1 c total ≤ 100 :=
  round1_le_100 (pct_le_100 h ht)

theorem count_three_split (values : List Int) {low high : Int}
    (hlh : low ≤ high) :
    countInRange values low high + countBelow values low
      + countAbove values high = values.length := by
  induction values with
  | nil => simp [countInRange, countBelow, countAbove]
  | cons v vs ih =>
    simp only [countInRange, countBelow, countAbove, List.countP_cons,
      List.length_cons] at *
    split_ifs with h1 h2 h3 <;> simp_all <;> omega

theorem countBelow_mono (values : List Int) {a b : Int} (h : a ≤ b) :
    countBelow values a ≤ countBelow values b := by
  unfold countBelow
  refine List.countP_mono_left (fun v _ hv => ?_)
  simp only [decide_eq_true_eq] at *
  omega

theorem countAbove_mono (values : List Int) {a b : Int} (h : b ≤ a) :
    countAbove values a ≤ countAbove values b := by
  unfold countAbove
  refine List.countP_mono_left (fun v _ hv => ?_)
  simp only [decide_eq_true_eq] at *
  omega

theorem countInRange_le_length (values : List Int) (low high : Int) :
    countInRange values low high ≤ values.length :=
  List.countP_le_length _

theorem countBelow_le_length (values : List Int) (b : Int) :
    countBelow values b ≤ values.length :=
  List.countP_le_length _

theorem countAbove_le_length (values : List Int) (b : Int) :
    countAbove values b ≤ values.length :=
  List.countP_le_length _

theorem round1_diff_pct_bounds {c1 c2 n : Nat} (h12 : c1 ≤ c2) (h2n : c2 ≤ n)
    (hn : 0 < n) :
    0 ≤ round1 (((c2 : ℚ) - (c1 : ℚ)) / (n : ℚ) * 100) ∧
      round1 (((c2 : ℚ) - (c1 : ℚ)) / (n : ℚ) * 100) ≤ 100 := by
  have hc : (c1 : ℚ) ≤ (c2 : ℚ) := by exact_mod_cast h12
  have hcn : (c2 : ℚ) ≤ (n : ℚ) := by exact_mod_cast h2n
  have hn0 : (0 : ℚ) < (n : ℚ) := by exact_mod_cast hn
  constructor
  · exact round1_nonneg
      (mul_nonneg (div_nonneg (by linarith) hn0.le) (by norm_num))
  · refine round1_le_100 ?_
    rw [div_mul_eq_mul_div, div_le_iff₀ hn0]
    nlinarith

theorem countBelow_split (values : List Int) {low : Int} (h : 54 ≤ low) :
    countBelow values low = countBelow values 54
      + values.countP (fun v => decide (54 ≤ v ∧ v < low)) := by
  induction values with
  | nil => simp [countBelow]
  | cons v vs ih =>
    simp only [countBelow, List.countP_cons] at *
    split_ifs <;> simp_all <;> omega

theorem countAbove_split (values : List Int) {high : Int} (h : high ≤ 250) :
    countAbove values high = countAbove values 250
      + values.countP (fun v => decide (high < v ∧ v ≤ 250)) := by
  induction values with
  | nil => simp [countAbove]
  | cons v vs ih =>
    simp only [countAbove, List.countP_cons] at *
    split_ifs <;> simp_all <;> omega

/-- C1 (counterexample): on the single reading 50 with thresholds 70/180,
the five percentage fields of `get_statistics` sum to 200, not 100: the
`below`/`very_low` (and `above`/`very_high`) bands overlap. -/
theorem c1_stats_bands_counterexample :
    (statistics_of (fun _ => 0) [50] 70 180).time_in_range_percent
      + (statistics_of (fun _ => 0) [50] 70 180).time_below_percent
      + (statistics_of (fun _ => 0) [50] 70 180).time_above_percent
      + (statistics_of (fun _ => 0) [50] 70 180).time_very_low_percent
      + (statistics_of (fun _ => 0) [50] 70 180).time_very_high_percent
      = 200 := by
  norm_num [statistics_of, pct1, pct, round1, round_eq, countInRange,
    countBelow, countAbove, List.countP, List.countP.go]

/-- C1 (amended): every band percentage reported by `get_statistics` and
by `get_agp_report`'s `time_in_ranges` lies in `[0, 100]`; the unrounded
in/below/above percentages of `get_statistics` sum to exactly 100 (for
ordered thresholds), as do the five unrounded disjoint AGP bands — but
`get_statistics`' five reported fields are cumulative
(`very_low ⊆ below`, `very_high ⊆ above`), so those five only sum to 100
plus the very-low and very-high percentages. -/
theorem statistics_and_agp_band_bounds (sq : ℚ → ℚ) (values : List Int)
    (low high : Int) (r : StatisticsReport) (t : TimeInRanges)
    (hne : values ≠ []) (hlh : low ≤ high)
    (hr : r = statistics_of sq values low high)
    (ht : t = time_in_ranges_of values) :
    (0 ≤ r.time_in_range_percent ∧ r.time_in_range_percent ≤ 100) ∧
    (0 ≤ r.time_below_percent ∧ r.time_below_percent ≤ 100) ∧
    (0 ≤ r.time_above_percent ∧ r.time_above_percent ≤ 100) ∧
    (0 ≤ r.time_very_low_percent ∧ r.time_very_low_percent ≤ 100) ∧
    (0 ≤ r.time_very_high_percent ∧ r.time_very_high_percent ≤ 100) ∧
    pct (countInRange values low high) values.length
      + pct (countBelow values low) values.length
      + pct (countAbove values high) values.length = 100 ∧
    (0 ≤ t.very_low_below_54 ∧ t.very_low_below_54 ≤ 100) ∧
    (0 ≤ t.low_54_70 ∧ t.low_54_70 ≤ 100) ∧
    (0 ≤ t.target_70_180 ∧ t.target_70_180 ≤ 100) ∧
    (0 ≤ t.high_180_250 ∧ t.high_180_250 ≤ 100) ∧
    (0 ≤ t.very_high_above_250 ∧ t.very_high_above_250 ≤ 100) ∧
    pct (countBelow values 54) values.length
      + ((countBelow values 70 : ℚ) - (countBelow values 54 : ℚ))
          / (values.length : ℚ) * 100
      + pct (countInRange values 70 180) values.length
      + ((countAbove values 180 : ℚ) - (countAbove values 250 : ℚ))
          / (values.length : ℚ) * 100
      + pct (countAbove values 250) values.length = 100 := by
  subst hr
  subst ht
  have hn : 0 < values.length := List.length_pos.mpr hne
  have hn0 : ((values.length : ℚ)) ≠ 0 := by
    have : (0 : ℚ) < (values.length : ℚ) := by exact_mod_cast hn
    linarith
  have key1 : countInRange values low high + countBelow values low
      + countAbove values high = values.length := count_three_split values hlh
  have key2 : countInRange values 70 180 + countBelow values 70
      + countAbove values 180 = values.length :=
    count_three_split values (by norm_num)
  refine ⟨⟨pct1_nonneg _ _, pct1_le_100 (countInRange_le_length _ _ _) hn⟩,
    ⟨pct1_nonneg _ _, pct1_le_100 (countBelow_le_length _ _) hn⟩,
    ⟨pct1_nonneg _ _, pct1_le_100 (countAbove_le_length _ _) hn⟩,
    ⟨pct1_nonneg _ _, pct1_le_100 (countBelow_le_length _ _) hn⟩,
    ⟨pct1_nonneg _ _, pct1_le_100 (countAbove_le_length _ _) hn⟩,
    ?_,
    ⟨pct1_nonneg _ _, pct1_le_100 (countBelow_le_length _ _) hn⟩,
    round1_diff_pct_bounds (countBelow_mono values (by norm_num))
      (countBelow_le_length _ _) hn,
    ⟨pct1_nonneg _ _, pct1_le_100 (countInRange_le_length _ _ _) hn⟩,
    round1_diff_pct_bounds (countAbove_mono values (by norm_num))
      (countAbove_le_length _ _) hn,
    ⟨pct1_nonneg _ _, pct1_le_100 (countAbove_le_length _ _) hn⟩,
    ?_⟩
  · have keyq : (countInRange values low high : ℚ) + (countBelow values low : ℚ)
        + (countAbove values high : ℚ) = (values.length : ℚ) := by
      exact_mod_cast key1
    unfold pct
    field_simp
    linear_combination 100 * keyq
  · have keyq : (countInRange values 70 180 : ℚ) + (countBelow values 70 : ℚ)
        + (countAbove values 180 : ℚ) = (values.length : ℚ) := by
      exact_mod_cast key2
    unfold pct
    field_simp
    linear_combination 100 * keyq

/-- C1 (witness): the band bounds at a concrete input. -/
theorem statistics_and_agp_band_bounds_witness :
    let r := statistics_of (fun _ => 0) [100] 70 180
    let t := time_in_ranges_of [100]
    let n := ([100] : List Int).length
    (0 ≤ r.time_in_range_percent ∧ r.time_in_range_percent ≤ 100) ∧
    (0 ≤ r.time_below_percent ∧ r.time_below_percent ≤ 100) ∧
    (0 ≤ r.time_above_percent ∧ r.time_above_percent ≤ 100) ∧
    (0 ≤ r.time_very_low_percent ∧ r.time_very_low_percent ≤ 100) ∧
    (0 ≤ r.time_very_high_percent ∧ r.time_very_high_percent ≤ 100) ∧
    pct (countInRange [100] 70 180) n + pct (countBelow [100] 70) n
      + pct (countAbove [100] 180) n = 100 ∧
    (0 ≤ t.very_low_below_54 ∧ t.very_low_below_54 ≤ 100) ∧
    (0 ≤ t.low_54_70 ∧ t.low_54_70 ≤ 100) ∧
    (0 ≤ t.target_70_180 ∧ t.target_70_180 ≤ 100) ∧
    (0 ≤ t.high_180_250 ∧ t.high_180_250 ≤ 100) ∧
    (0 ≤ t.very_high_above_250 ∧ t.very_high_above_250 ≤ 100) ∧
    pct (countBelow [100] 54) n
      + ((countBelow [100] 70 : ℚ) - (countBelow [100] 54 : ℚ)) / (n : ℚ) * 100
      + pct (countInRange [100] 70 180) n
      + ((countAbove [100] 180 : ℚ) - (countAbove [100] 250 : ℚ)) / (n : ℚ) * 100
      + pct (countAbove [100] 250) n = 100 :=
  statistics_and_agp_band_bounds (fun _ => 0) [100] 70 180
    (statistics_of (fun _ => 0) [100] 70 180) (time_in_ranges_of [100])
    (by decide) (by decide) rfl rfl

/-- C2 (counterexample): on the single reading 50 with thresholds
70/180, `get_statistics` reports `time_below_percent = 100`, while the
disjoint band `[urgent_low, low) = [54, 70)` the claim says it reports is
0%: the reported field counts all of `v < low`, not `54 ≤ v < low`. -/
theorem c2_disjoint_bands_counterexample :
    (statistics_of (fun _ => 0) [50] 70 180).time_below_percent = 100 ∧
    specBandLowPct [50] 70 = 0 := by
  constructor <;>
    norm_num [statistics_of, specBandLowPct, pct1, pct, round1, round_eq,
      countBelow, List.countP, List.countP.go]

/-- C2 (amended): `get_statistics` reports `count/total*100` rounded to
one decimal for five cumulative predicates — in-range `low ≤ v ≤ high`,
below `v < low` (all of it, including the very-low tail), above
`v > high`, very-low `v < 54`, very-high `v > 250`.  When
`54 ≤ low` and `high ≤ 250` the spec's disjoint bands are recovered as
the count differences `below − very_low` and `above − very_high`. -/
theorem statistics_reports_cumulative_bands (sq : ℚ → ℚ) (values : List Int)
    (low high : Int) (r : StatisticsReport) (hne : values ≠ [])
    (hr : r = statistics_of sq values low high) :
    r.time_in_range_percent = pct1 (countInRange values low high) values.length ∧
    r.time_below_percent = pct1 (countBelow values low) values.length ∧
    r.time_above_percent = pct1 (countAbove values high) values.length ∧
    r.time_very_low_percent = pct1 (countBelow values 54) values.length ∧
    r.time_very_high_percent = pct1 (countAbove values 250) values.length ∧
    (54 ≤ low → countBelow values low = countBelow values 54
      + values.countP (fun v => decide (54 ≤ v ∧ v < low))) ∧
    (high ≤ 250 → countAbove values high = countAbove values 250
      + values.countP (fun v => decide (high < v ∧ v ≤ 250))) := by
  subst hr
  exact ⟨rfl, rfl, rfl, rfl, rfl, fun h => countBelow_split values h,
    fun h => countAbove_split values h⟩

/-- C2 (witness): the amended statement at a concrete input. -/
theorem statistics_reports_cumulative_bands_witness :
    let r := statistics_of (fun _ => 0) [60] 70 180
    let n := ([60] : List Int).length
    r.time_in_range_percent = pct1 (countInRange [60] 70 180) n ∧
    r.time_below_percent = pct1 (countBelow [60] 70) n ∧
    r.time_above_percent = pct1 (countAbove [60] 180) n ∧
    r.time_very_low_percent = pct1 (countBelow [60] 54) n ∧
    r.time_very_high_percent = pct1 (countAbove [60] 250) n ∧
    (54 ≤ (70 : Int) → countBelow [60] 70 = countBelow [60] 54
      + ([60] : List Int).countP (fun v => decide (54 ≤ v ∧ v < 70))) ∧
    ((180 : Int) ≤ 250 → countAbove [60] 180 = countAbove [60] 250
      + ([60] : List Int).countP (fun v => decide (180 < v ∧ v ≤ 250))) :=
  statistics_reports_cumulative_bands (fun _ => 0) [60] 70 180
    (statistics_of (fun _ => 0) [60] 70 180) (by decide) rfl

theorem parseRecord_error_iff (iso : String → Option Nat)
    (d : ExternalRecord) :
    (∃ e, parseRecord iso d = .error e) ↔ recordBad iso d := by
  unfold parseRecord recordBad
  cases hg : d.glucose_mg_dl <;> cases ht : d.timestamp <;> simp
  case some.some g s =>
    cases hi : iso (s.replace "Z" "+00:00") <;> simp [hi]

theorem parse_external_data_cons (iso : String → Option Nat)
    (d : ExternalRecord) (ds : List ExternalRecord) :
    parse_external_data iso (d :: ds) =
      match parseRecord iso d with
      | .error e => .error e
      | .ok r =>
        match parse_external_data iso ds with
        | .error e => .error e
        | .ok rs => .ok (r :: rs) := by
  unfold parse_external_data
  rw [List.mapM_cons]
  cases parseRecord iso d with
  | error e => rfl
  | ok r =>
    cases ds.mapM (parseRecord iso) with
    | error e => rfl
    | ok rs => rfl

theorem parse_external_data_length (iso : String → Option Nat) :
    ∀ (data : List ExternalRecord) (rs : List Reading),
      parse_external_data iso data = .ok rs → rs.length = data.length := by
  intro data
  induction data with
  | nil =>
    intro rs h
    have hnil : parse_external_data iso ([] : List ExternalRecord) = .ok [] := rfl
    rw [hnil] at h
    simp only [Except.ok.injEq] at h
    simp [← h]
  | cons d ds ih =>
    intro rs h
    rw [parse_external_data_cons] at h
    cases hr : parseRecord iso d with
    | error e => rw [hr] at h; exact absurd h (by simp)
    | ok r =>
      rw [hr] at h
      cases hp : parse_external_data iso ds with
      | error e => rw [hp] at h; exact absurd h (by simp)
      | ok rs2 =>
        rw [hp] at h
        simp only [Except.ok.injEq] at h
        have := ih rs2 hp
        simp [← h, this]

/-- C8: normalizing an external batch fails (with a validation error)
exactly when some record lacks a required field or carries an
unparseable timestamp, and a successful parse covers the whole batch
(one canonical reading per input record) — over every choice of the
ambient ISO-8601 parser. -/
theorem parse_external_data_fails_iff_bad_record (iso : String → Option Nat)
    (data : List ExternalRecord) :
    ((∃ e, parse_external_data iso data = .error e) ↔
      ∃ d ∈ data, recordBad iso d) ∧
    (∀ rs, parse_external_data iso data = .ok rs → rs.length = data.length) := by
  refine ⟨?_, parse_external_data_length iso data⟩
  induction data with
  | nil =>
    have hnil : parse_external_data iso ([] : List ExternalRecord) = .ok [] := rfl
    rw [hnil]
    simp
  | cons d ds ih =>
    rw [parse_external_data_cons]
    cases hr : parseRecord iso d with
    | error e =>
      simp only []
      constructor
      · intro _
        exact ⟨d, by simp, (parseRecord_error_iff iso d).mp ⟨e, hr⟩⟩
      · intro _
        exact ⟨e, rfl⟩
    | ok r =>
      have hgood : ¬ recordBad iso d := by
        intro hb
        rcases (parseRecord_error_iff iso d).mpr hb with ⟨e, he⟩
        rw [hr] at he
        exact Except.noConfusion he
      cases hp : parse_external_data iso ds with
      | error e =>
        simp only []
        constructor
        · intro _
          rcases ih.mp ⟨e, hp⟩ with ⟨d2, hd2, hbad⟩
          exact ⟨d2, by simp [hd2], hbad⟩
        · intro _
          exact ⟨e, rfl⟩
      | ok rs =>
        simp only []
        constructor
        · rintro ⟨e, he⟩
          exact absurd he (by simp)
        · rintro ⟨d2, hd2, hbad⟩
          rcases List.mem_cons.mp hd2 with h | h
          · exact absurd hbad (h ▸ hgood)
          · rcases ih.mpr ⟨d2, h, hbad⟩ with ⟨e, he⟩
            rw [hp] at he
            exact Except.noConfusion he

/-- C8 (witness): a concrete well-formed batch parses whole. -/
theorem parse_external_data_fails_iff_bad_record_witness :
    ((∃ e, parse_external_data (fun _ => some 5)
        [{ glucose_mg_dl := some 100, timestamp := some "x" }] = .error e) ↔
      ∃ d ∈ [({ glucose_mg_dl := some 100, timestamp := some "x" } :
          ExternalRecord)], recordBad (fun _ => some 5) d) ∧
    (∀ rs, parse_external_data (fun _ => some 5)
        [{ glucose_mg_dl := some 100, timestamp := some "x" }] = .ok rs →
      rs.length = [({ glucose_mg_dl := some 100, timestamp := some "x" } :
          ExternalRecord)].length) :=
  parse_external_data_fails_iff_bad_record (fun _ => some 5)
    [{ glucose_mg_dl := some 100, timestamp := some "x" }]

/-- C5: when the resolved input reading sequence is empty — the `data`
argument is falsy (absent or the empty batch) and acquisition returns
nothing — every analysis operation returns the tagged `no_data` result
with its human-readable message (and, being a total function into
`ToolResult`, raises nothing). -/
theorem empty_input_gives_no_data (iso : String → Option Nat) (sq : ℚ → ℚ)
    (now : Nat) (client : Int → Int → List Reading)
    (hclient : ∀ m c, client m c = [])
    (minutes max_count low high : Int) (format : String)
    (data : Option (List ExternalRecord))
    (hdata : data = none ∨ data = some []) :
    get_glucose_readings iso now client minutes max_count data
        = .no_data "No readings found" ∧
    get_statistics iso sq now client minutes low high data
        = .no_data "No readings found" ∧
    detect_episodes iso now client minutes low high data
        = .no_data "No readings available" ∧
    get_episode_details iso now client minutes low high data
        = .no_data "No readings available" ∧
    analyze_time_blocks iso now client minutes low high data
        = .no_data "No readings available" ∧
    export_data iso now client minutes format data
        = .no_data "No readings to export" ∧
    get_agp_report iso sq now client minutes data
        = .no_data "No readings available" := by
  have hd : dataTruthy data = false := by
    rcases hdata with h | h <;> simp [h, dataTruthy]
  refine ⟨?_, ?_, ?_, ?_, ?_, ?_, ?_⟩ <;>
    simp [get_glucose_readings, get_statistics, detect_episodes,
      get_episode_details, analyze_time_blocks, export_data, get_agp_report,
      resolveData, hd, hclient]

/-- C5 (witness): the seven `no_data` results at a concrete empty
environment. -/
theorem empty_input_gives_no_data_witness :
    get_glucose_readings (fun _ => none) 0 (fun _ _ => []) 60 12 none
        = .no_data "No readings found" ∧
    get_statistics (fun _ => none) (fun _ => 0) 0 (fun _ _ => []) 1440 70 180 none
        = .no_data "No readings found" ∧
    detect_episodes (fun _ => none) 0 (fun _ _ => []) 1440 70 180 none
        = .no_data "No readings available" ∧
    get_episode_details (fun _ => none) 0 (fun _ _ => []) 1440 70 180 none
        = .no_data "No readings available" ∧
    analyze_time_blocks (fun _ => none) 0 (fun _ _ => []) 1440 70 180 none
        = .no_data "No readings available" ∧
    export_data (fun _ => none) 0 (fun _ _ => []) 1440 "json" none
        = .no_data "No readings to export" ∧
    get_agp_report (fun _ => none) (fun _ => 0) 0 (fun _ _ => []) 1440 none
        = .no_data "No readings available" :=
  empty_input_gives_no_data (fun _ => none) (fun _ => 0) 0 (fun _ _ => [])
    (fun _ _ => rfl) 60 12 70 180 "json" none (Or.inl rfl)

/-- C6: when a truthy external batch is supplied, every operation's
result is a function of the batch alone — two runs against arbitrary,
different acquisition collaborators return identical results (the
collaborator is never consulted). -/
theorem supplied_batch_ignores_collaborator (iso : String → Option Nat)
    (sq : ℚ → ℚ) (now : Nat) (client₁ client₂ : Int → Int → List Reading)
    (minutes max_count low high : Int) (format : String)
    (ds : List ExternalRecord) (hds : ds ≠ []) :
    get_glucose_readings iso now client₁ minutes max_count (some ds)
        = get_glucose_readings iso now client₂ minutes max_count (some ds) ∧
    get_statistics iso sq now client₁ minutes low high (some ds)
        = get_statistics iso sq now client₂ minutes low high (some ds) ∧
    detect_episodes iso now client₁ minutes low high (some ds)
        = detect_episodes iso now client₂ minutes low high (some ds) ∧
    get_episode_details iso now client₁ minutes low high (some ds)
        = get_episode_details iso now client₂ minutes low high (some ds) ∧
    analyze_time_blocks iso now client₁ minutes low high (some ds)
        = analyze_time_blocks iso now client₂ minutes low high (some ds) ∧
    export_data iso now client₁ minutes format (some ds)
        = export_data iso now client₂ minutes format (some ds) ∧
    get_agp_report iso sq now client₁ minutes (some ds)
        = get_agp_report iso sq now client₂ minutes (some ds) := by
  have hd : dataTruthy (some ds) = true := by
    simp [dataTruthy, List.isEmpty_iff, hds]
  refine ⟨?_, ?_, ?_, ?_, ?_, ?_, ?_⟩ <;>
    simp [get_glucose_readings, get_statistics, detect_episodes,
      get_episode_details, analyze_time_blocks, export_data, get_agp_report,
      resolveData, hd]

/-- C6 (witness): two distinct collaborators, one supplied batch. -/
theorem supplied_batch_ignores_collaborator_witness :
    get_glucose_readings (fun _ => some 3) 0 (fun _ _ => []) 60 12
        (some [{ glucose_mg_dl := some 100, timestamp := some "x" }])
      = get_glucose_readings (fun _ => some 3) 0
        (fun _ _ => [{ value := 999, datetime := 1 }]) 60 12
        (some [{ glucose_mg_dl := some 100, timestamp := some "x" }]) ∧
    get_statistics (fun _ => some 3) (fun _ => 0) 0 (fun _ _ => []) 60 70 180
        (some [{ glucose_mg_dl := some 100, timestamp := some "x" }])
      = get_statistics (fun _ => some 3) (fun _ => 0) 0
        (fun _ _ => [{ value := 999, datetime := 1 }]) 60 70 180
        (some [{ glucose_mg_dl := some 100, timestamp := some "x" }]) ∧
    detect_episodes (fun _ => some 3) 0 (fun _ _ => []) 60 70 180
        (some [{ glucose_mg_dl := some 100, timestamp := some "x" }])
      = detect_episodes (fun _ => some 3) 0
        (fun _ _ => [{ value := 999, datetime := 1 }]) 60 70 180
        (some [{ glucose_mg_dl := some 100, timestamp := some "x" }]) ∧
    get_episode_details (fun _ => some 3) 0 (fun _ _ => []) 60 70 180
        (some [{ glucose_mg_dl := some 100, timestamp := some "x" }])
      = get_episode_details (fun _ => some 3) 0
        (fun _ _ => [{ value := 999, datetime := 1 }]) 60 70 180
        (some [{ glucose_mg_dl := some 100, timestamp := some "x" }]) ∧
    analyze_time_blocks (fun _ => some 3) 0 (fun _ _ => []) 60 70 180
        (some [{ glucose_mg_dl := some 100, timestamp := some "x" }])
      = analyze_time_blocks (fun _ => some 3) 0
        (fun _ _ => [{ value := 999, datetime := 1 }]) 60 70 180
        (some [{ glucose_mg_dl := some 100, timestamp := some "x" }]) ∧
    export_data (fun _ => some 3) 0 (fun _ _ => []) 60 "json"
        (some [{ glucose_mg_dl := some 100, timestamp := some "x" }])
      = export_data (fun _ => some 3) 0
        (fun _ _ => [{ value := 999, datetime := 1 }]) 60 "json"
        (some [{ glucose_mg_dl := some 100, timestamp := some "x" }]) ∧
    get_agp_report (fun _ => some 3) (fun _ => 0) 0 (fun _ _ => []) 60
        (some [{ glucose_mg_dl := some 100, timestamp := some "x" }])
      = get_agp_report (fun _ => some 3) (fun _ => 0) 0
        (fun _ _ => [{ value := 999, datetime := 1 }]) 60
        (some [{ glucose_mg_dl := some 100, timestamp := some "x" }]) :=
  supplied_batch_ignores_collaborator (fun _ => some 3) (fun _ => 0) 0
    (fun _ _ => []) (fun _ _ => [{ value := 999, datetime := 1 }])
    60 12 70 180 "json" [{ glucose_mg_dl := some 100, timestamp := some "x" }]
    (by simp)

/-- C9 (counterexample): `export_data` is not a function of its frozen
input alone — the same batch exported at clock 0 and at clock 1 yields
different results, because `export_timestamp` records `datetime.now()`. -/
theorem export_data_depends_on_clock :
    export_data (fun _ => some 0) 0 (fun _ _ => []) 60 "json"
        (some [{ glucose_mg_dl := some 100, timestamp := some "t" }])
      ≠ export_data (fun _ => some 0) 1 (fun _ _ => []) 60 "json"
        (some [{ glucose_mg_dl := some 100, timestamp := some "t" }]) := by
  simp [export_data, resolveData, dataTruthy, parse_external_data,
    parseRecord, List.mapM, List.mapM.loop]

/-- C9 (amended): every analysis operation except `export_data` is a
pure function of its arguments with no dependence on the invocation
time; `export_data` likewise determines every field of its result from
the arguments except `export_timestamp`, which is the wall clock of the
call. -/
theorem analyses_independent_of_clock (iso : String → Option Nat)
    (sq : ℚ → ℚ) (client : Int → Int → List Reading) (now₁ now₂ : Nat)
    (minutes max_count low high : Int) (format : String)
    (data : Option (List ExternalRecord)) :
    get_glucose_readings iso now₁ client minutes max_count data
        = get_glucose_readings iso now₂ client minutes max_count data ∧
    get_statistics iso sq now₁ client minutes low high data
        = get_statistics iso sq now₂ client minutes low high data ∧
    detect_episodes iso now₁ client minutes low high data
        = detect_episodes iso now₂ client minutes low high data ∧
    get_episode_details iso now₁ client minutes low high data
        = get_episode_details iso now₂ client minutes low high data ∧
    analyze_time_blocks iso now₁ client minutes low high data
        = analyze_time_blocks iso now₂ client minutes low high data ∧
    get_agp_report iso sq now₁ client minutes data
        = get_agp_report iso sq now₂ client minutes data ∧
    (export_data iso now₁ client minutes format data).core exportCore
        = (export_data iso now₂ client minutes format data).core exportCore := by
  refine ⟨rfl, rfl, rfl, rfl, rfl, rfl, ?_⟩
  unfold export_data
  cases resolveData iso client minutes 288 data with
  | error e => rfl
  | ok readings =>
    by_cases h : readings.isEmpty <;>
      simp [h, ToolResult.core, exportCore]

theorem pySliceTo_length (k : Int) (l : List α) :
    (pySliceTo k l).length =
      if k < 0 then l.length - k.natAbs else min k.toNat l.length := by
  unfold pySliceTo
  split <;> simp [List.length_take]

theorem get_glucose_readings_data_eval (iso : String → Option Nat)
    (now : Nat) (client : Int → Int → List Reading)
    (minutes max_count : Int) (recs : List ExternalRecord)
    (rs : List Reading)
    (hparse : parse_external_data iso recs = .ok rs) (hrecs : recs ≠ []) :
    get_glucose_readings iso now client minutes max_count (some recs) =
      (if (pySliceTo max_count
            (rs.mergeSort (fun a b => b.datetime ≤ a.datetime))).isEmpty then
        .no_data "No readings found"
      else
        .ok { count := (pySliceTo max_count
                (rs.mergeSort (fun a b => b.datetime ≤ a.datetime))).length,
              readings := (pySliceTo max_count
                (rs.mergeSort (fun a b => b.datetime ≤ a.datetime))).map
                  readingRow }) := by
  have hd : dataTruthy (some recs) = true := by
    simp [dataTruthy, List.isEmpty_iff, hrecs]
  simp only [get_glucose_readings, hd, if_true, Option.getD_some, hparse]

/-- C10 (counterexample): a supplied two-record batch with
`max_count = -1` does not produce `no_data`: Python's `[:-1]` slice
keeps all but the last entry, so the result is a populated report with
one reading. -/
theorem negative_max_count_counterexample :
    (get_glucose_readings (fun _ => some 0) 0 (fun _ _ => []) 60 (-1)
        (some [{ glucose_mg_dl := some 100, timestamp := some "b" },
               { glucose_mg_dl := some 90, timestamp := some "a" }])).core
      (fun r => r.count) = .ok 1 := by
  have hparse : parse_external_data (fun _ => some 0)
      [{ glucose_mg_dl := some 100, timestamp := some "b" },
       { glucose_mg_dl := some 90, timestamp := some "a" }] =
      .ok [{ value := 100, datetime := 0 }, { value := 90, datetime := 0 }] := rfl
  rw [get_glucose_readings_data_eval (fun _ => some 0) 0 (fun _ _ => []) 60 (-1)
    _ _ hparse (by simp)]
  have hs : (([{ value := 100, datetime := 0 }, { value := 90, datetime := 0 }] :
        List Reading).mergeSort (fun a b => b.datetime ≤ a.datetime))
      = [{ value := 100, datetime := 0 }, { value := 90, datetime := 0 }] :=
    List.mergeSort_of_sorted (by decide)
  rw [hs]
  simp [pySliceTo, ToolResult.core]

/-- C10 (amended): with a supplied batch the `max_count` cap is applied
by Python slicing with no clamping to `[1, 288]`: with a non-empty
parsed batch of `n` readings, `max_count = 0` or `max_count ≤ -n` yields
an empty selection and a `no_data` result despite the supplied data; a
negative `max_count` with `-n < max_count` keeps the `n + max_count`
most recent readings; a positive `max_count` keeps
`min max_count n`. -/
theorem supplied_batch_max_count_semantics (iso : String → Option Nat)
    (now : Nat) (client : Int → Int → List Reading)
    (minutes max_count : Int) (recs : List ExternalRecord)
    (rs : List Reading)
    (hparse : parse_external_data iso recs = .ok rs) (hne : rs ≠ []) :
    (max_count = 0 ∨ max_count + (rs.length : Int) ≤ 0 →
      get_glucose_readings iso now client minutes max_count (some recs)
        = .no_data "No readings found") ∧
    (max_count < 0 → 0 < max_count + (rs.length : Int) →
      (get_glucose_readings iso now client minutes max_count
          (some recs)).core (fun r => r.count)
        = .ok (rs.length - max_count.natAbs)) ∧
    (0 < max_count →
      (get_glucose_readings iso now client minutes max_count
          (some recs)).core (fun r => r.count)
        = .ok (min max_count.toNat rs.length)) := by
  have hrecs : recs ≠ [] := by
    intro h
    subst h
    have : parse_external_data iso ([] : List ExternalRecord) = .ok [] := rfl
    rw [this] at hparse
    simp only [Except.ok.injEq] at hparse
    exact hne hparse.symm
  have hlen0 : 0 < rs.length := List.length_pos.mpr hne
  rw [get_glucose_readings_data_eval iso now client minutes max_count recs rs
    hparse hrecs]
  have hslice : (pySliceTo max_count
      (rs.mergeSort (fun a b => b.datetime ≤ a.datetime))).length =
      if max_count < 0 then rs.length - max_count.natAbs
      else min max_count.toNat rs.length := by
    rw [pySliceTo_length]
    simp
  refine ⟨?_, ?_, ?_⟩
  · intro hmc
    have hempty : (pySliceTo max_count
        (rs.mergeSort (fun a b => b.datetime ≤ a.datetime))).isEmpty = true := by
      rw [List.isEmpty_iff, ← List.length_eq_zero, hslice]
      split <;> omega
    rw [if_pos hempty]
  · intro hneg hpos
    have hlen : (pySliceTo max_count
        (rs.mergeSort (fun a b => b.datetime ≤ a.datetime))).length =
        rs.length - max_count.natAbs := by
      rw [hslice, if_pos hneg]
    have hnonempty : ¬ (pySliceTo max_count
        (rs.mergeSort (fun a b => b.datetime ≤ a.datetime))).isEmpty = true := by
      rw [List.isEmpty_iff, ← List.length_eq_zero, hlen]
      omega
    rw [if_neg hnonempty]
    simp [ToolResult.core, hlen]
  · intro hmc
    have hlen : (pySliceTo max_count
        (rs.mergeSort (fun a b => b.datetime ≤ a.datetime))).length =
        min max_count.toNat rs.length := by
      rw [hslice, if_neg (by omega)]
    have hnonempty : ¬ (pySliceTo max_count
        (rs.mergeSort (fun a b => b.datetime ≤ a.datetime))).isEmpty = true := by
      rw [List.isEmpty_iff, ← List.length_eq_zero, hlen]
      omega
    rw [if_neg hnonempty]
    simp [ToolResult.core, hlen]

/-- C10 (witness): the amended slicing semantics at a concrete batch of
two readings. -/
theorem supplied_batch_max_count_semantics_witness :
    ((-1 : Int) = 0 ∨ (-1 : Int) + (([{ value := 100, datetime := 0 },
        { value := 90, datetime := 0 }] : List Reading).length : Int) ≤ 0 →
      get_glucose_readings (fun _ => some 0) 0 (fun _ _ => []) 60 (-1)
          (some [{ glucose_mg_dl := some 100, timestamp := some "b" },
                 { glucose_mg_dl := some 90, timestamp := some "a" }])
        = .no_data "No readings found") ∧
    ((-1 : Int) < 0 → 0 < (-1 : Int) + (([{ value := 100, datetime := 0 },
        { value := 90, datetime := 0 }] : List Reading).length : Int) →
      (get_glucose_readings (fun _ => some 0) 0 (fun _ _ => []) 60 (-1)
          (some [{ glucose_mg_dl := some 100, timestamp := some "b" },
                 { glucose_mg_dl := some 90, timestamp := some "a" }])).core
          (fun r => r.count)
        = .ok (([{ value := 100, datetime := 0 },
            { value := 90, datetime := 0 }] : List Reading).length
              - (-1 : Int).natAbs)) ∧
    (0 < (-1 : Int) →
      (get_glucose_readings (fun _ => some 0) 0 (fun _ _ => []) 60 (-1)
          (some [{ glucose_mg_dl := some 100, timestamp := some "b" },
                 { glucose_mg_dl := some 90, timestamp := some "a" }])).core
          (fun r => r.count)
        = .ok (min (-1 : Int).toNat ([{ value := 100, datetime := 0 },
            { value := 90, datetime := 0 }] : List Reading).length)) :=
  supplied_batch_max_count_semantics (fun _ => some 0) 0 (fun _ _ => []) 60
    (-1) [{ glucose_mg_dl := some 100, timestamp := some "b" },
          { glucose_mg_dl := some 90, timestamp := some "a" }]
    [{ value := 100, datetime := 0 }, { value := 90, datetime := 0 }]
    rfl (by decide)

theorem mergeSort_le_sorted (l : List Int) :
    (l.mergeSort (fun a b => a ≤ b)).Sorted (· ≤ ·) := by
  have h : List.Pairwise (fun a b : Int => decide (a ≤ b) = true)
      (List.mergeSort l (fun a b : Int => decide (a ≤ b))) := List.sorted_mergeSort
    (fun a b c hab hbc => by
      simp only [decide_eq_true_eq] at *
      omega)
    (fun a b => by
      simp only [Bool.or_eq_true, decide_eq_true_eq]
      exact Int.le_total a b) l
  exact h.imp (by simp)

theorem percentile_some (values : List Int) (hne : values.isEmpty = false)
    (p : Nat) :
    percentile values p = some ((values.mergeSort (fun a b => a ≤ b)).getD
      (min (values.length * p / 100) (values.length - 1)) 0) := by
  unfold percentile
  rw [hne]
  simp

theorem percentile_getD_mono (values : List Int) (hne : values.isEmpty = false)
    {p q : Nat} (hpq : p ≤ q) :
    (values.mergeSort (fun a b => a ≤ b)).getD
        (min (values.length * p / 100) (values.length - 1)) 0
      ≤ (values.mergeSort (fun a b => a ≤ b)).getD
        (min (values.length * q / 100) (values.length - 1)) 0 := by
  have hlen : (values.mergeSort (fun a b => a ≤ b)).length = values.length :=
    List.length_mergeSort values
  have hpos : 0 < values.length := by
    cases values with
    | nil => simp at hne
    | cons a l => simp
  have hip : min (values.length * p / 100) (values.length - 1) < values.length := by
    omega
  have hiq : min (values.length * q / 100) (values.length - 1) < values.length := by
    omega
  have hle : min (values.length * p / 100) (values.length - 1)
      ≤ min (values.length * q / 100) (values.length - 1) := by
    have : values.length * p / 100 ≤ values.length * q / 100 :=
      Nat.div_le_div_right (Nat.mul_le_mul_left _ hpq)
    omega
  have hip2 : min (values.length * p / 100) (values.length - 1)
      < (values.mergeSort (fun a b => a ≤ b)).length := by omega
  have hiq2 : min (values.length * q / 100) (values.length - 1)
      < (values.mergeSort (fun a b => a ≤ b)).length := by omega
  rw [List.getD_eq_getElem?_getD, List.getD_eq_getElem?_getD,
    List.getElem?_eq_getElem hip2, List.getElem?_eq_getElem hiq2]
  simp only [Option.getD_some]
  have hs := mergeSort_le_sorted values
  have hfin : (⟨min (values.length * p / 100) (values.length - 1), hip2⟩ :
        Fin (values.mergeSort (fun a b => a ≤ b)).length)
      ≤ ⟨min (values.length * q / 100) (values.length - 1), hiq2⟩ :=
    Fin.mk_le_mk.mpr hle
  have h2 := hs.rel_get_of_le hfin
  simpa [List.get_eq_getElem] using h2

/-- C7: in `get_agp_report`, every hourly-profile row with at least one
value reports nearest-rank percentiles satisfying
`p5 ≤ p25 ≤ p50 ≤ p75 ≤ p95`. -/
theorem agp_hourly_percentiles_monotone (readings : List Reading)
    (e : HourEntry) (he : e ∈ hourly_profile readings)
    (hc : 0 < e.readings_count) :
    ∃ a b c d f, e.p5 = some a ∧ e.p25 = some b ∧ e.p50 = some c ∧
      e.p75 = some d ∧ e.p95 = some f ∧ a ≤ b ∧ b ≤ c ∧ c ≤ d ∧ d ≤ f := by
  unfold hourly_profile at he
  rcases List.mem_map.mp he with ⟨hour, _, hentry⟩
  by_cases hv : (hourValues readings hour).isEmpty
  · rw [if_pos hv] at hentry
    rw [← hentry] at hc
    simp at hc
  · rw [if_neg hv] at hentry
    have hne : (hourValues readings hour).isEmpty = false := by
      simpa using hv
    subst hentry
    refine ⟨_, _, _, _, _, percentile_some _ hne 5, percentile_some _ hne 25,
      percentile_some _ hne 50, percentile_some _ hne 75,
      percentile_some _ hne 95, ?_, ?_, ?_, ?_⟩ <;>
      exact percentile_getD_mono _ hne (by omega)

/-- C7 (witness): the monotone percentiles of the hour-0 row on a
concrete reading list. -/
theorem agp_hourly_percentiles_monotone_witness :
    ∃ a b c d f,
      ({ hour := 0, p5 := percentile [100] 5, p25 := percentile [100] 25,
         p50 := percentile [100] 50, p75 := percentile [100] 75,
         p95 := percentile [100] 95, readings_count := 1 } : HourEntry).p5
          = some a ∧
      ({ hour := 0, p5 := percentile [100] 5, p25 := percentile [100] 25,
         p50 := percentile [100] 50, p75 := percentile [100] 75,
         p95 := percentile [100] 95, readings_count := 1 } : HourEntry).p25
          = some b ∧
      ({ hour := 0, p5 := percentile [100] 5, p25 := percentile [100] 25,
         p50 := percentile [100] 50, p75 := percentile [100] 75,
         p95 := percentile [100] 95, readings_count := 1 } : HourEntry).p50
          = some c ∧
      ({ hour := 0, p5 := percentile [100] 5, p25 := percentile [100] 25,
         p50 := percentile [100] 50, p75 := percentile [100] 75,
         p95 := percentile [100] 95, readings_count := 1 } : HourEntry).p75
          = some d ∧
      ({ hour := 0, p5 := percentile [100] 5, p25 := percentile [100] 25,
         p50 := percentile [100] 50, p75 := percentile [100] 75,
         p95 := percentile [100] 95, readings_count := 1 } : HourEntry).p95
          = some f ∧
      a ≤ b ∧ b ≤ c ∧ c ≤ d ∧ d ≤ f :=
  agp_hourly_percentiles_monotone [{ value := 100, datetime := 0 }]
    { hour := 0, p5 := percentile [100] 5, p25 := percentile [100] 25,
      p50 := percentile [100] 50, p75 := percentile [100] 75,
      p95 := percentile [100] 95, readings_count := 1 }
    (by
      simp only [hourly_profile, List.mem_map]
      refine ⟨0, by simp, ?_⟩
      have : hourValues [{ value := 100, datetime := 0 }] 0 = [100] := rfl
      rw [this]
      simp)
    (by simp)

/-!  ### Lemmas about the canonical run decomposition  -/

theorem chunksAux_some (s : α → Option Bool) :
    ∀ (l : List α) (b : Bool) (run : List α),
      chunksAux s l (some (b, run)) =
        (b, run ++ l.takeWhile (fun q => decide (s q = some b)))
          :: chunksAux s (l.dropWhile (fun q => decide (s q = some b))) none := by
  intro l
  induction l with
  | nil => intro b run; simp [chunksAux]
  | cons p rest ih =>
    intro b run
    cases hp : s p with
    | none =>
      simp only [chunksAux, hp]
      have h1 : List.takeWhile (fun q => decide (s q = some b)) (p :: rest)
          = [] := by
        rw [List.takeWhile_cons]
        simp [hp]
      have h2 : List.dropWhile (fun q => decide (s q = some b)) (p :: rest)
          = p :: rest := by
        rw [List.dropWhile_cons]
        simp [hp]
      rw [h1, h2, List.append_nil]
      congr 1
      exact (by simp [chunksAux, hp] :
        chunksAux s (p :: rest) none = chunksAux s rest none).symm
    | some b2 =>
      rcases eq_or_ne b2 b with hb | hb
      · simp only [chunksAux, hp, if_pos hb]
        have h1 : List.takeWhile (fun q => decide (s q = some b)) (p :: rest)
            = p :: List.takeWhile (fun q => decide (s q = some b)) rest := by
          rw [List.takeWhile_cons]
          simp [hp, hb]
        have h2 : List.dropWhile (fun q => decide (s q = some b)) (p :: rest)
            = List.dropWhile (fun q => decide (s q = some b)) rest := by
          rw [List.dropWhile_cons]
          simp [hp, hb]
        rw [h1, h2, ih]
        simp
      · simp only [chunksAux, hp, if_neg hb]
        have h1 : List.takeWhile (fun q => decide (s q = some b)) (p :: rest)
            = [] := by
          rw [List.takeWhile_cons]
          simp [hp, hb]
        have h2 : List.dropWhile (fun q => decide (s q = some b)) (p :: rest)
            = p :: rest := by
          rw [List.dropWhile_cons]
          simp [hp, hb]
        rw [h1, h2, List.append_nil]
        congr 1
        exact (by simp [chunksAux, hp] :
          chunksAux s (p :: rest) none = chunksAux s rest (some (b2, [p]))).symm

theorem chunksAux_map (f : β → α) (s : α → Option Bool) :
    ∀ (l : List β) (oc : Option (Bool × List β)),
      chunksAux s (l.map f) (oc.map (fun c => (c.1, c.2.map f))) =
        (chunksAux (fun x => s (f x)) l oc).map (fun c => (c.1, c.2.map f)) := by
  intro l
  induction l with
  | nil =>
    intro oc
    cases oc with
    | none => simp [chunksAux]
    | some c => simp [chunksAux]
  | cons p rest ih =>
    intro oc
    cases oc with
    | none =>
      cases hp : s (f p) with
      | none => simpa [chunksAux, hp] using ih none
      | some b => simpa [chunksAux, hp] using ih (some (b, [p]))
    | some c =>
      obtain ⟨b, run⟩ := c
      cases hp : s (f p) with
      | none => simpa [chunksAux, hp] using ih none
      | some b2 =>
        rcases eq_or_ne b2 b with hb | hb
        · have h1 := ih (some (b, run ++ [p]))
          simp only [chunksAux, hp, if_pos hb, Option.map_some']
          simp only [Option.map_some'] at h1
          simpa using h1
        · have h1 := ih (some (b2, [p]))
          simp only [chunksAux, hp, if_neg hb, Option.map_some']
          simp only [Option.map_some'] at h1
          simpa using h1

theorem chunksAux_mem_side (s : α → Option Bool) :
    ∀ (l : List α) (oc : Option (Bool × List α)),
      (∀ b run, oc = some (b, run) → run ≠ [] ∧ ∀ q ∈ run, s q = some b) →
      ∀ c ∈ chunksAux s l oc, c.2 ≠ [] ∧ ∀ q ∈ c.2, s q = some c.1 := by
  intro l
  induction l with
  | nil =>
    intro oc hoc c hc
    cases oc with
    | none => simp [chunksAux] at hc
    | some c0 =>
      simp only [chunksAux, List.mem_singleton] at hc
      subst hc
      exact hoc c.1 c.2 (by simp)
  | cons p rest ih =>
    intro oc hoc c hc
    cases oc with
    | none =>
      cases hp : s p with
      | none =>
        simp only [chunksAux, hp] at hc
        exact ih none (by simp) c hc
      | some b =>
        simp only [chunksAux, hp] at hc
        refine ih (some (b, [p])) ?_ c hc
        rintro b' run' heq
        injection heq with heq2
        injection heq2 with hb hrun
        subst hb
        subst hrun
        exact ⟨by simp, by simpa using hp⟩
    | some c0 =>
      obtain ⟨b, run⟩ := c0
      cases hp : s p with
      | none =>
        simp only [chunksAux, hp] at hc
        rcases List.mem_cons.mp hc with h | h
        · subst h
          exact hoc b run rfl
        · exact ih none (by simp) c h
      | some b2 =>
        rcases eq_or_ne b2 b with hb | hb
        · simp only [chunksAux, hp, if_pos hb] at hc
          refine ih (some (b, run ++ [p])) ?_ c hc
          rintro b' run' heq
          injection heq with heq2
          injection heq2 with hb' hrun
          subst hb'
          subst hrun
          refine ⟨by simp, ?_⟩
          intro q hq
          rcases List.mem_append.mp hq with h | h
          · exact (hoc b run rfl).2 q h
          · simp only [List.mem_singleton] at h
            subst h
            rw [hp, hb]
        · simp only [chunksAux, hp, if_neg hb] at hc
          rcases List.mem_cons.mp hc with h | h
          · subst h
            exact hoc b run rfl
          · refine ih (some (b2, [p])) ?_ c h
            rintro b' run' heq
            injection heq with heq2
            injection heq2 with hb' hrun
            subst hb'
            subst hrun
            exact ⟨by simp, by simpa using hp⟩

theorem chunksAux_flatten (s : α → Option Bool) :
    ∀ (l : List α) (oc : Option (Bool × List α)),
      (chunksAux s l oc).flatMap (·.2) =
        (match oc with | none => [] | some c => c.2)
          ++ l.filter (fun q => (s q).isSome) := by
  intro l
  induction l with
  | nil =>
    intro oc
    cases oc with
    | none => simp [chunksAux]
    | some c => simp [chunksAux]
  | cons p rest ih =>
    intro oc
    cases oc with
    | none =>
      cases hp : s p with
      | none => simp [chunksAux, hp, List.filter_cons, ih none]
      | some b =>
        simp only [chunksAux, hp, List.filter_cons]
        rw [ih (some (b, [p]))]
        simp [hp]
    | some c0 =>
      obtain ⟨b, run⟩ := c0
      cases hp : s p with
      | none =>
        simp only [chunksAux, hp, List.filter_cons, List.flatMap_cons]
        rw [ih none]
        simp [hp]
      | some b2 =>
        rcases eq_or_ne b2 b with hb | hb
        · simp only [chunksAux, hp, if_pos hb, List.filter_cons]
          rw [ih (some (b, run ++ [p]))]
          simp [hp]
        · simp only [chunksAux, hp, if_neg hb, List.filter_cons,
            List.flatMap_cons]
          rw [ih (some (b2, [p]))]
          simp [hp]

theorem chunksAux_run_subset (s : α → Option Bool) (l : List α)
    (oc : Option (Bool × List α)) (c : Bool × List α)
    (hc : c ∈ chunksAux s l oc) (x : α) (hx : x ∈ c.2) :
    x ∈ (match oc with | none => ([] : List α) | some c0 => c0.2) ++ l := by
  have hxf : x ∈ (chunksAux s l oc).flatMap (·.2) :=
    List.mem_flatMap_of_mem hc hx
  rw [chunksAux_flatten] at hxf
  cases oc with
  | none =>
    simp only [List.nil_append] at hxf ⊢
    exact List.mem_of_mem_filter hxf
  | some c0 =>
    simp only [] at hxf ⊢
    rcases List.mem_append.mp hxf with h | h
    · exact List.mem_append.mpr (Or.inl h)
    · exact List.mem_append.mpr (Or.inr (List.mem_of_mem_filter h))

theorem chunksAux_chain (s : α → Option Bool) (tOf : α → Nat) :
    ∀ (l : List α) (oc : Option (Bool × List α)),
      ((match oc with | none => [] | some c => c.2) ++ l).Pairwise
          (fun a b => tOf a < tOf b) →
      (chunksAux s l oc).Chain'
          (fun c d => ∀ x ∈ c.2, ∀ y ∈ d.2, tOf x < tOf y) ∧
      ∀ c ∈ chunksAux s l oc, c.2.Pairwise (fun a b => tOf a < tOf b) := by
  intro l
  induction l with
  | nil =>
    intro oc hp
    cases oc with
    | none => simp [chunksAux]
    | some c0 =>
      simp only [chunksAux]
      refine ⟨List.chain'_singleton _, ?_⟩
      intro c hc
      simp only [List.mem_singleton] at hc
      subst hc
      simpa using hp
  | cons p rest ih =>
    intro oc hp
    cases oc with
    | none =>
      cases hs : s p with
      | none =>
        simp only [chunksAux, hs]
        exact ih none (by simpa using hp.of_cons)
      | some b =>
        simp only [chunksAux, hs]
        exact ih (some (b, [p])) (by simpa using hp)
    | some c0 =>
      obtain ⟨b, run⟩ := c0
      have hp' : (run ++ p :: rest).Pairwise (fun a b => tOf a < tOf b) := hp
      have hcross := (List.pairwise_append.mp hp').2.2
      have hrest : ((List.nil) ++ rest).Pairwise (fun a b => tOf a < tOf b) := by
        simpa using ((List.pairwise_append.mp hp').2.1).of_cons
      cases hs : s p with
      | none =>
        simp only [chunksAux, hs]
        refine ⟨List.chain'_cons'.mpr ⟨?_, (ih none hrest).1⟩, ?_⟩
        · intro d hd x hx y hy
          have hdm : d ∈ chunksAux s rest none := List.mem_of_mem_head? hd
          have hyr : y ∈ ([] : List α) ++ rest :=
            chunksAux_run_subset s rest none d hdm y hy
          simp only [List.nil_append] at hyr
          exact hcross x hx y (by simp [hyr])
        · intro c hc
          rcases List.mem_cons.mp hc with h | h
          · subst h
            exact (List.pairwise_append.mp hp').1
          · exact (ih none hrest).2 c h
      | some b2 =>
        rcases eq_or_ne b2 b with hb | hb
        · simp only [chunksAux, hs, if_pos hb]
          refine ih (some (b, run ++ [p])) ?_
          simp only []
          rw [List.append_assoc]
          simpa using hp'
        · simp only [chunksAux, hs, if_neg hb]
          have hp2 : ([p] ++ rest).Pairwise (fun a b => tOf a < tOf b) := by
            simpa using (List.pairwise_append.mp hp').2.1
          refine ⟨List.chain'_cons'.mpr ⟨?_, (ih (some (b2, [p])) hp2).1⟩, ?_⟩
          · intro d hd x hx y hy
            have hdm : d ∈ chunksAux s rest (some (b2, [p])) :=
              List.mem_of_mem_head? hd
            have hyr : y ∈ [p] ++ rest :=
              chunksAux_run_subset s rest (some (b2, [p])) d hdm y hy
            rcases List.mem_append.mp hyr with h | h
            · simp only [List.mem_singleton] at h
              subst h
              exact hcross x hx y (by simp)
            · exact hcross x hx y (by simp [h])
          · intro c hc
            rcases List.mem_cons.mp hc with h | h
            · subst h
              exact (List.pairwise_append.mp hp').1
            · exact (ih (some (b2, [p])) hp2).2 c h

theorem sorted_head_le (tOf : α → Nat) (run : List α) (x : α) (hx : x ∈ run)
    (hp : run.Pairwise (fun a b => tOf a < tOf b)) :
    ∀ h ∈ run.head?, tOf h ≤ tOf x := by
  cases run with
  | nil => simp at hx
  | cons a rest =>
    intro h hh
    simp only [List.head?_cons, Option.mem_def, Option.some.injEq] at hh
    subst hh
    rcases List.mem_cons.mp hx with h | h
    · subst h; exact le_refl _
    · exact le_of_lt ((List.pairwise_cons.mp hp).1 x h)

theorem sorted_le_last (tOf : α → Nat) :
    ∀ (run : List α) (x : α), x ∈ run →
      run.Pairwise (fun a b => tOf a < tOf b) →
      ∀ g ∈ run.getLast?, tOf x ≤ tOf g := by
  intro run
  induction run with
  | nil => intro x hx; simp at hx
  | cons a rest ih =>
    intro x hx hp g hg
    cases hr : rest with
    | nil =>
      subst hr
      simp only [List.getLast?_singleton, Option.mem_def, Option.some.injEq] at hg
      simp only [List.mem_singleton] at hx
      subst hg
      subst hx
      exact le_refl _
    | cons b rest2 =>
      subst hr
      have hg2 : g ∈ (b :: rest2).getLast? := by
        simpa [List.getLast?_cons_cons] using hg
      have hgm : g ∈ b :: rest2 := by
        rcases Option.mem_def.mp hg2 with h
        exact List.mem_of_getLast?_eq_some h
      rcases List.mem_cons.mp hx with h | h
      · subst h
        exact le_of_lt ((List.pairwise_cons.mp hp).1 g hgm)
      · exact ih x h (List.pairwise_cons.mp hp).2 g hg2

/-!  ### Bridging `detect_episodes` to the canonical decomposition  -/

theorem runType_lowSide (b : Bool) (vals : List Int) :
    (runType b vals).lowSide = b := by
  unfold runType
  cases b
  · simp only [Bool.false_eq_true, if_false]
    split <;> rfl
  · simp only [if_true]
    split <;> rfl

theorem detect_classify_single (low high v : Int) (ty : EType)
    (h : detect_classify low high v = some ty) :
    runType ty.lowSide [v] = ty := by
  unfold detect_classify at h
  split_ifs at h with h1 h2 h3 h4 <;>
    (injection h with h; subst h) <;>
    simp_all [runType, EType.lowSide]

theorem runType_concat (low high v : Int) (ty : EType) (b : Bool)
    (hcl : detect_classify low high v = some ty) (hb : ty.lowSide = b)
    (vals : List Int) :
    runType b (vals ++ [v]) =
      if ty = .very_low ∨ ty = .very_high then ty else runType b vals := by
  unfold detect_classify at hcl
  split_ifs at hcl with h1 h2 h3 h4 <;>
    (injection hcl with hcl; subst hcl;
      simp only [EType.lowSide] at hb; subst hb) <;>
    simp_all [runType, List.any_append] <;>
    first
    | (have hv : ¬ (v < 54) := by omega
       simp [hv])
    | (have hv : ¬ (250 < v) := by omega
       simp [hv])

theorem chunkEpisode_single (low high : Int) (r : Reading) (ty : EType)
    (hcl : detect_classify low high r.value = some ty) :
    chunkEpisode (ty.lowSide, [r]) =
      { type := ty, start := r.datetime, stop := r.datetime,
        values := [r.value], ongoing := false } := by
  unfold chunkEpisode
  simp [detect_classify_single low high r.value ty hcl]

theorem chunkEpisode_concat (low high : Int) (b : Bool) (run : List Reading)
    (hne : run ≠ []) (r : Reading) (ty : EType)
    (hcl : detect_classify low high r.value = some ty) (hb : ty.lowSide = b) :
    chunkEpisode (b, run ++ [r]) =
      { chunkEpisode (b, run) with
          stop := r.datetime,
          values := (chunkEpisode (b, run)).values ++ [r.value],
          type := if ty = .very_low ∨ ty = .very_high then ty
                  else (chunkEpisode (b, run)).type } := by
  have hhead : (run ++ [r]).head? = run.head? := by
    cases run with
    | nil => exact absurd rfl hne
    | cons h t => rfl
  unfold chunkEpisode
  simp only [List.map_append, List.getLast?_concat, hhead, Option.map_some',
    Option.getD_some, Episode.mk.injEq]
  exact ⟨runType_concat low high r.value ty b hcl hb _, by simp⟩

theorem episode_core_ongoing (e : Episode) :
    ({ e with ongoing := true } : Episode).core = e.core := rfl

theorem detect_go_eq_chunks (low high : Int) :
    ∀ (l : List Reading) (eps : List Episode)
      (oc : Option (Bool × List Reading)),
      (∀ b run, oc = some (b, run) → run ≠ [] ∧
        ∀ r ∈ run, detectSide low high r.value = some b) →
      (detect_go low high l eps (oc.map chunkEpisode)).map Episode.core =
        eps.map Episode.core
          ++ (chunksAux (fun r => detectSide low high r.value) l oc).map
              (fun c => (chunkEpisode c).core) := by
  intro l
  induction l with
  | nil =>
    intro eps oc hoc
    cases oc with
    | none => simp [detect_go, chunksAux]
    | some c0 =>
      simp [detect_go, chunksAux, episode_core_ongoing]
  | cons r rest ih =>
    intro eps oc hoc
    cases hcl : detect_classify low high r.value with
    | none =>
      have hside : detectSide low high r.value = none := by
        simp [detectSide, hcl]
      cases oc with
      | none =>
        simp only [Option.map_none', detect_go, hcl]
        rw [show chunksAux (fun q => detectSide low high q.value)
            (r :: rest) none =
            chunksAux (fun q => detectSide low high q.value) rest none from by
          simp [chunksAux, hside]]
        have h2 := ih eps none (by simp)
        simpa using h2
      | some c0 =>
        obtain ⟨b, run⟩ := c0
        simp only [Option.map_some', detect_go, hcl]
        rw [show chunksAux (fun q => detectSide low high q.value)
            (r :: rest) (some (b, run)) =
            (b, run) :: chunksAux (fun q => detectSide low high q.value)
              rest none from by
          simp [chunksAux, hside]]
        have h2 := ih (eps ++ [chunkEpisode (b, run)]) none (by simp)
        simp only [Option.map_none'] at h2
        rw [h2]
        simp
    | some ty =>
      have hside : detectSide low high r.value = some ty.lowSide := by
        simp [detectSide, hcl]
      cases oc with
      | none =>
        simp only [Option.map_none', detect_go, hcl]
        rw [show chunksAux (fun q => detectSide low high q.value)
            (r :: rest) none =
            chunksAux (fun q => detectSide low high q.value) rest
              (some (ty.lowSide, [r])) from by
          simp [chunksAux, hside]]
        have h2 := ih eps (some (ty.lowSide, [r])) (by
          rintro b' run' heq
          injection heq with heq2
          injection heq2 with hb hrun
          subst hb
          subst hrun
          exact ⟨by simp, by simpa using hside⟩)
        simp only [Option.map_some'] at h2
        rw [chunkEpisode_single low high r ty hcl] at h2
        exact h2
      | some c0 =>
        obtain ⟨b, run⟩ := c0
        obtain ⟨hne, hall⟩ := hoc b run rfl
        simp only [Option.map_some', detect_go, hcl]
        have hts : (chunkEpisode (b, run)).type.lowSide = b :=
          runType_lowSide b _
        rcases eq_or_ne ty.lowSide b with hb | hb
        · rw [if_pos (by rw [hts, hb])]
          rw [show chunksAux (fun q => detectSide low high q.value)
              (r :: rest) (some (b, run)) =
              chunksAux (fun q => detectSide low high q.value) rest
                (some (b, run ++ [r])) from by
            simp [chunksAux, hside, hb]]
          have h2 := ih eps (some (b, run ++ [r])) (by
            rintro b' run' heq
            injection heq with heq2
            injection heq2 with hb' hrun
            subst hb'
            subst hrun
            refine ⟨by simp, ?_⟩
            intro q hq
            rcases List.mem_append.mp hq with h | h
            · exact hall q h
            · simp only [List.mem_singleton] at h
              subst h
              rw [hside, hb])
          simp only [Option.map_some'] at h2
          rw [chunkEpisode_concat low high b run hne r ty hcl hb] at h2
          exact h2
        · rw [if_neg (by rw [hts]; exact hb)]
          rw [show chunksAux (fun q => detectSide low high q.value)
              (r :: rest) (some (b, run)) =
              (b, run) :: chunksAux (fun q => detectSide low high q.value)
                rest (some (ty.lowSide, [r])) from by
            simp [chunksAux, hside, hb]]
          have h2 := ih (eps ++ [chunkEpisode (b, run)])
            (some (ty.lowSide, [r])) (by
              rintro b' run' heq
              injection heq with heq2
              injection heq2 with hb' hrun
              subst hb'
              subst hrun
              exact ⟨by simp, by simpa using hside⟩)
          simp only [Option.map_some'] at h2
          rw [chunkEpisode_single low high r ty hcl] at h2
          rw [h2]
          simp

theorem detect_segments_eq_chunks (low high : Int) (l : List Reading) :
    (detect_segments low high l).map Episode.core =
      (chunksAux (fun r => detectSide low high r.value)
          (l.mergeSort (fun a b => a.datetime ≤ b.datetime)) none).map
        (fun c => (chunkEpisode c).core) := by
  unfold detect_segments
  have h := detect_go_eq_chunks low high
    (l.mergeSort (fun a b => a.datetime ≤ b.datetime)) [] none (by simp)
  simpa using h

theorem chunkEpisode_start_mem (c : Bool × List Reading) (hne : c.2 ≠ []) :
    ∃ h ∈ c.2, (chunkEpisode c).start = h.datetime ∧ c.2.head? = some h := by
  obtain ⟨b, run⟩ := c
  cases run with
  | nil => exact absurd rfl hne
  | cons a t =>
    exact ⟨a, by simp, by simp [chunkEpisode], rfl⟩

theorem chunkEpisode_stop_mem (c : Bool × List Reading) (hne : c.2 ≠ []) :
    ∃ g ∈ c.2, (chunkEpisode c).stop = g.datetime ∧ c.2.getLast? = some g := by
  obtain ⟨b, run⟩ := c
  obtain ⟨g, hg⟩ := Option.isSome_iff_exists.mp (List.getLast?_isSome.mpr hne)
  exact ⟨g, List.mem_of_getLast?_eq_some hg, by simp [chunkEpisode, hg], hg⟩

theorem chunkEpisode_member_bounds (c : Bool × List Reading) (x : Reading)
    (hx : x ∈ c.2)
    (hp : c.2.Pairwise (fun a b => a.datetime < b.datetime)) :
    (chunkEpisode c).start ≤ x.datetime ∧
      x.datetime ≤ (chunkEpisode c).stop := by
  have hne : c.2 ≠ [] := by
    intro h
    rw [h] at hx
    simp at hx
  obtain ⟨h, _, hstart, hh⟩ := chunkEpisode_start_mem c hne
  obtain ⟨g, _, hstop, hg⟩ := chunkEpisode_stop_mem c hne
  constructor
  · rw [hstart]
    exact sorted_head_le Reading.datetime c.2 x hx hp h (by simp [hh])
  · rw [hstop]
    exact sorted_le_last Reading.datetime c.2 x hx hp g (by simp [hg])

theorem chunkEpisode_start_le_stop (c : Bool × List Reading) (hne : c.2 ≠ [])
    (hp : c.2.Pairwise (fun a b => a.datetime < b.datetime)) :
    (chunkEpisode c).start ≤ (chunkEpisode c).stop := by
  obtain ⟨h, hmem, hstart, _⟩ := chunkEpisode_start_mem c hne
  have := chunkEpisode_member_bounds c h hmem hp
  omega

theorem chain'_imp_mem {R S : α → α → Prop} :
    ∀ (l : List α), (∀ a ∈ l, ∀ b ∈ l, R a b → S a b) → l.Chain' R →
      l.Chain' S := by
  intro l
  induction l with
  | nil => intro _ _; exact List.chain'_nil
  | cons a t ih =>
    intro h hc
    rw [List.chain'_cons'] at hc ⊢
    refine ⟨?_, ih (fun x hx y hy => h x (by simp [hx]) y (by simp [hy])) hc.2⟩
    intro y hy
    exact h a (by simp) y
      (by simp [List.mem_of_mem_head? hy]) (hc.1 y hy)

theorem chain_lt_all :
    ∀ (eps : List Episode) (e : Episode),
      (e :: eps).Chain' (fun a b => a.stop < b.start) →
      (∀ x ∈ eps, x.start ≤ x.stop) →
      ∀ x ∈ eps, e.stop < x.start := by
  intro eps
  induction eps with
  | nil => intro e _ _ x hx; simp at hx
  | cons f t ih =>
    intro e hchain hse x hx
    have h1 : e.stop < f.start := (List.chain'_cons.mp hchain).1
    rcases List.mem_cons.mp hx with h | h
    · subst h; exact h1
    · have h2 := ih f (List.chain'_cons.mp hchain).2
        (fun y hy => hse y (by simp [hy])) x h
      have h3 := hse f (by simp)
      omega

theorem interval_unique :
    ∀ (eps : List Episode),
      eps.Chain' (fun a b => a.stop < b.start) →
      (∀ x ∈ eps, x.start ≤ x.stop) → ∀ (t : Nat),
      ∀ e₁ ∈ eps, ∀ e₂ ∈ eps, e₁.start ≤ t → t ≤ e₁.stop →
        e₂.start ≤ t → t ≤ e₂.stop → e₁ = e₂ := by
  intro eps
  induction eps with
  | nil => intro _ _ t e₁ h1; simp at h1
  | cons e rest ih =>
    intro hchain hse t e₁ h1 e₂ h2 ha hb hc hd
    have hall := chain_lt_all rest e hchain (fun y hy => hse y (by simp [hy]))
    rcases List.mem_cons.mp h1 with h1e | h1r <;>
      rcases List.mem_cons.mp h2 with h2e | h2r
    · rw [h1e, h2e]
    · exfalso
      have hlt := hall e₂ h2r
      rw [h1e] at hb
      omega
    · exfalso
      have hlt := hall e₁ h1r
      rw [h2e] at hd
      omega
    · exact ih (List.Chain'.tail hchain)
        (fun y hy => hse y (by simp [hy])) t e₁ h1r e₂ h2r ha hb hc hd

theorem chunksAux_adjacent_same (s : α → Option Bool) (d : Bool) :
    ∀ (l₁ : List α) (a b : α) (l₂ : List α) (oc : Option (Bool × List α)),
      s a = some d → s b = some d →
      ∃ c ∈ chunksAux s (l₁ ++ a :: b :: l₂) oc, a ∈ c.2 ∧ b ∈ c.2 := by
  intro l₁
  induction l₁ with
  | nil =>
    intro a b l₂ oc ha hb
    cases oc with
    | none =>
      simp only [List.nil_append, chunksAux, ha, hb, eq_self_iff_true, if_true]
      rw [chunksAux_some]
      refine ⟨_, List.mem_cons_self _ _, ?_, ?_⟩ <;> simp
    | some c0 =>
      obtain ⟨b0, run⟩ := c0
      rcases eq_or_ne d b0 with hd0 | hd0
      · subst hd0
        simp only [List.nil_append, chunksAux, ha, hb, eq_self_iff_true,
          if_true]
        rw [chunksAux_some]
        refine ⟨_, List.mem_cons_self _ _, ?_, ?_⟩ <;> simp
      · have hd0' : ¬ (d = b0) := hd0
        simp only [List.nil_append, chunksAux, ha, hb, hd0', if_false,
          eq_self_iff_true, if_true]
        rw [chunksAux_some]
        refine ⟨_, List.mem_cons_of_mem _ (List.mem_cons_self _ _), ?_, ?_⟩ <;>
          simp
  | cons p l₁' ih =>
    intro a b l₂ oc ha hb
    cases oc with
    | none =>
      cases hp : s p with
      | none =>
        simp only [List.cons_append, chunksAux, hp]
        exact ih a b l₂ none ha hb
      | some b2 =>
        simp only [List.cons_append, chunksAux, hp]
        exact ih a b l₂ (some (b2, [p])) ha hb
    | some c0 =>
      obtain ⟨b0, run⟩ := c0
      cases hp : s p with
      | none =>
        simp only [List.cons_append, chunksAux, hp]
        obtain ⟨c, hc, hac, hbc⟩ := ih a b l₂ none ha hb
        exact ⟨c, by simp [hc], hac, hbc⟩
      | some b2 =>
        rcases eq_or_ne b2 b0 with hb2 | hb2
        · simp only [List.cons_append, chunksAux, hp, if_pos hb2]
          exact ih a b l₂ (some (b0, run ++ [p])) ha hb
        · simp only [List.cons_append, chunksAux, hp, if_neg hb2]
          obtain ⟨c, hc, hac, hbc⟩ := ih a b l₂ (some (b2, [p])) ha hb
          exact ⟨c, by simp [hc], hac, hbc⟩

theorem chunksAux_direction_change (s : α → Option Bool) (d d' : Bool)
    (hdd : d ≠ d') :
    ∀ (l₁ : List α) (a b : α) (l₂ : List α) (oc : Option (Bool × List α)),
      s a = some d → s b = some d' →
      ∃ c ∈ chunksAux s (l₁ ++ a :: b :: l₂) oc, c.2.head? = some b := by
  have hne : ¬ (d' = d) := fun h => hdd h.symm
  intro l₁
  induction l₁ with
  | nil =>
    intro a b l₂ oc ha hb
    cases oc with
    | none =>
      simp only [List.nil_append, chunksAux, ha, hb, hne, if_false]
      rw [chunksAux_some]
      refine ⟨_, List.mem_cons_of_mem _ (List.mem_cons_self _ _), ?_⟩
      simp
    | some c0 =>
      obtain ⟨b0, run⟩ := c0
      rcases eq_or_ne d b0 with hd0 | hd0
      · subst hd0
        simp only [List.nil_append, chunksAux, ha, hb, hne, eq_self_iff_true,
          if_true, if_false]
        rw [chunksAux_some]
        refine ⟨_, List.mem_cons_of_mem _ (List.mem_cons_self _ _), ?_⟩
        simp
      · have hd0' : ¬ (d = b0) := hd0
        simp only [List.nil_append, chunksAux, ha, hb, hne, hd0', if_false]
        rw [chunksAux_some]
        refine ⟨_, List.mem_cons_of_mem _
          (List.mem_cons_of_mem _ (List.mem_cons_self _ _)), ?_⟩
        simp
  | cons p l₁' ih =>
    intro a b l₂ oc ha hb
    cases oc with
    | none =>
      cases hp : s p with
      | none =>
        simp only [List.cons_append, chunksAux, hp]
        exact ih a b l₂ none ha hb
      | some b2 =>
        simp only [List.cons_append, chunksAux, hp]
        exact ih a b l₂ (some (b2, [p])) ha hb
    | some c0 =>
      obtain ⟨b0, run⟩ := c0
      cases hp : s p with
      | none =>
        simp only [List.cons_append, chunksAux, hp]
        obtain ⟨c, hc, hhead⟩ := ih a b l₂ none ha hb
        exact ⟨c, by simp [hc], hhead⟩
      | some b2 =>
        rcases eq_or_ne b2 b0 with hb2 | hb2
        · simp only [List.cons_append, chunksAux, hp, if_pos hb2]
          exact ih a b l₂ (some (b0, run ++ [p])) ha hb
        · simp only [List.cons_append, chunksAux, hp, if_neg hb2]
          obtain ⟨c, hc, hhead⟩ := ih a b l₂ (some (b2, [p])) ha hb
          exact ⟨c, by simp [hc], hhead⟩

theorem core_eq_fields {e f : Episode} (h : e.core = f.core) :
    e.type = f.type ∧ e.start = f.start ∧ e.stop = f.stop ∧
      e.values = f.values := by
  unfold Episode.core at h
  simpa [Prod.ext_iff] using h

/-- C4: on a strictly ascending reading sequence, the episodes emitted
by `detect_episodes` have `start ≤ end`, are chronologically disjoint,
their member values enumerate exactly the out-of-range readings in
order, every out-of-range reading lies in exactly one episode's time
interval, two adjacent same-side out-of-range readings lie in one
episode's interval, and a direction change starts a new episode. -/
theorem detect_episodes_invariants (readings : List Reading) (low high : Int)
    (hsorted : readings.Pairwise (fun a b => a.datetime < b.datetime)) :
    let eps := detect_segments low high readings
    (∀ e ∈ eps, e.start ≤ e.stop) ∧
    eps.Chain' (fun e f => e.stop < f.start) ∧
    (eps.flatMap (·.values) =
      (readings.filter
        (fun r => (detect_classify low high r.value).isSome)).map (·.value)) ∧
    (∀ r ∈ readings, (detect_classify low high r.value).isSome →
      ∃! e, e ∈ eps ∧ e.start ≤ r.datetime ∧ r.datetime ≤ e.stop) ∧
    (∀ l₁ a b l₂, readings = l₁ ++ a :: b :: l₂ →
      ∀ d, detectSide low high a.value = some d →
        detectSide low high b.value = some d →
      ∃ e ∈ eps, e.start ≤ a.datetime ∧ a.datetime ≤ e.stop ∧
        e.start ≤ b.datetime ∧ b.datetime ≤ e.stop) ∧
    (∀ l₁ a b l₂, readings = l₁ ++ a :: b :: l₂ →
      ∀ d d2, detectSide low high a.value = some d →
        detectSide low high b.value = some d2 → d ≠ d2 →
      ∃ e ∈ eps, e.start = b.datetime) := by
  intro eps
  have hms : readings.mergeSort (fun a b => a.datetime ≤ b.datetime)
      = readings :=
    List.mergeSort_of_sorted (hsorted.imp (fun h => by
      simp only [decide_eq_true_eq]
      omega))
  have hmap := detect_segments_eq_chunks low high readings
  rw [hms] at hmap
  have hmem := chunksAux_mem_side
    (fun r : Reading => detectSide low high r.value) readings none (by simp)
  have hchain := chunksAux_chain
    (fun r : Reading => detectSide low high r.value) Reading.datetime
    readings none (by simpa using hsorted)
  have corr1 : ∀ e ∈ eps, ∃ c ∈ chunksAux
      (fun r : Reading => detectSide low high r.value) readings none,
      e.core = (chunkEpisode c).core := by
    intro e he
    have h1 : e.core ∈ eps.map Episode.core := List.mem_map_of_mem _ he
    rw [hmap] at h1
    rcases List.mem_map.mp h1 with ⟨c, hc, hcc⟩
    exact ⟨c, hc, hcc.symm⟩
  have corr2 : ∀ c ∈ chunksAux
      (fun r : Reading => detectSide low high r.value) readings none,
      ∃ e ∈ eps, e.core = (chunkEpisode c).core := by
    intro c hc
    have h1 : (chunkEpisode c).core
        ∈ (chunksAux (fun r : Reading => detectSide low high r.value)
            readings none).map (fun c => (chunkEpisode c).core) :=
      List.mem_map_of_mem _ hc
    rw [← hmap] at h1
    rcases List.mem_map.mp h1 with ⟨e, he, hec⟩
    exact ⟨e, he, hec⟩
  have part1 : ∀ e ∈ eps, e.start ≤ e.stop := by
    intro e he
    obtain ⟨c, hc, hcc⟩ := corr1 e he
    obtain ⟨-, hstart, hstop, -⟩ := core_eq_fields hcc
    rw [hstart, hstop]
    exact chunkEpisode_start_le_stop c (hmem c hc).1 (hchain.2 c hc)
  have part2 : eps.Chain' (fun e f => e.stop < f.start) := by
    have hchainS : (chunksAux
        (fun r : Reading => detectSide low high r.value) readings
        none).Chain' (fun c d =>
          (chunkEpisode c).stop < (chunkEpisode d).start) := by
      refine chain'_imp_mem _ ?_ hchain.1
      intro c hcm d hdm hR
      obtain ⟨g, hgmem, hgstop, -⟩ := chunkEpisode_stop_mem c (hmem c hcm).1
      obtain ⟨h, hhmem, hhstart, -⟩ := chunkEpisode_start_mem d (hmem d hdm).1
      rw [hgstop, hhstart]
      exact hR g hgmem h hhmem
    have h1 : ((chunksAux (fun r : Reading => detectSide low high r.value)
        readings none).map (fun c => (chunkEpisode c).core)).Chain'
        (fun t u => t.2.2.1 < u.2.1) := by
      rw [List.chain'_map]
      exact hchainS
    rw [← hmap] at h1
    rw [List.chain'_map] at h1
    exact h1
  refine ⟨part1, part2, ?_, ?_, ?_, ?_⟩
  · have h1 : eps.flatMap (·.values)
        = (eps.map Episode.core).flatMap (fun t => t.2.2.2) := by
      rw [List.flatMap_map]
      rfl
    rw [h1, hmap, List.flatMap_map]
    have h2 : (fun c : Bool × List Reading =>
        ((chunkEpisode c).core).2.2.2) = fun c => c.2.map (·.value) := rfl
    rw [h2, ← List.map_flatMap, chunksAux_flatten]
    simp only [List.nil_append]
    congr 1
    apply List.filter_congr
    intro r _
    simp [detectSide]
  · intro r hr hcls
    have hrs : r ∈ readings.filter
        (fun q => (detectSide low high q.value).isSome) := by
      rw [List.mem_filter]
      refine ⟨hr, by simp [detectSide, hcls]⟩
    have hflat : r ∈ (chunksAux
        (fun r : Reading => detectSide low high r.value) readings
        none).flatMap (·.2) := by
      rw [chunksAux_flatten]
      simpa using hrs
    rcases List.mem_flatMap.mp hflat with ⟨c, hc, hrc⟩
    obtain ⟨e, he, hec⟩ := corr2 c hc
    obtain ⟨-, hstart, hstop, -⟩ := core_eq_fields hec
    have hbounds := chunkEpisode_member_bounds c r hrc (hchain.2 c hc)
    refine ⟨e, ⟨he, by omega, by omega⟩, ?_⟩
    rintro e2 ⟨he2, h12, h22⟩
    exact interval_unique eps part2 part1 r.datetime e2 he2 e he
      h12 h22 (by omega) (by omega)
  · intro l₁ a b l₂ hdecomp d hA hB
    obtain ⟨c, hc, hac, hbc⟩ := chunksAux_adjacent_same
      (fun r : Reading => detectSide low high r.value) d l₁ a b l₂ none hA hB
    rw [← hdecomp] at hc
    obtain ⟨e, he, hec⟩ := corr2 c hc
    obtain ⟨-, hstart, hstop, -⟩ := core_eq_fields hec
    have hba := chunkEpisode_member_bounds c a hac (hchain.2 c hc)
    have hbb := chunkEpisode_member_bounds c b hbc (hchain.2 c hc)
    exact ⟨e, he, by omega, by omega, by omega, by omega⟩
  · intro l₁ a b l₂ hdecomp d d2 hA hB hdd
    obtain ⟨c, hc, hhead⟩ := chunksAux_direction_change
      (fun r : Reading => detectSide low high r.value) d d2 hdd
      l₁ a b l₂ none hA hB
    rw [← hdecomp] at hc
    obtain ⟨e, he, hec⟩ := corr2 c hc
    obtain ⟨-, hstart, -, -⟩ := core_eq_fields hec
    have hcs : (chunkEpisode c).start = b.datetime := by
      obtain ⟨bc, runc⟩ := c
      unfold chunkEpisode
      simp only [] at hhead
      simp [hhead]
    exact ⟨e, he, by omega⟩

/-- C4 (witness): the episode invariants on a concrete two-reading
strictly ascending sequence. -/
theorem detect_episodes_invariants_witness :
    let eps := detect_segments 70 180
      [{ value := 50, datetime := 0 }, { value := (300 : Int), datetime := 5 }]
    (∀ e ∈ eps, e.start ≤ e.stop) ∧
    eps.Chain' (fun e f => e.stop < f.start) ∧
    (eps.flatMap (·.values) =
      (([{ value := 50, datetime := 0 }, { value := (300 : Int), datetime := 5 }] : List Reading).filter
        (fun r => (detect_classify 70 180 r.value).isSome)).map (·.value)) ∧
    (∀ r ∈ ([{ value := 50, datetime := 0 }, { value := (300 : Int), datetime := 5 }] : List Reading),
      (detect_classify 70 180 r.value).isSome →
      ∃! e, e ∈ eps ∧ e.start ≤ r.datetime ∧ r.datetime ≤ e.stop) ∧
    (∀ l₁ a b l₂, ([{ value := 50, datetime := 0 }, { value := (300 : Int), datetime := 5 }] : List Reading)
        = l₁ ++ a :: b :: l₂ →
      ∀ d, detectSide 70 180 a.value = some d →
        detectSide 70 180 b.value = some d →
      ∃ e ∈ eps, e.start ≤ a.datetime ∧ a.datetime ≤ e.stop ∧
        e.start ≤ b.datetime ∧ b.datetime ≤ e.stop) ∧
    (∀ l₁ a b l₂, ([{ value := 50, datetime := 0 }, { value := (300 : Int), datetime := 5 }] : List Reading)
        = l₁ ++ a :: b :: l₂ →
      ∀ d d2, detectSide 70 180 a.value = some d →
        detectSide 70 180 b.value = some d2 → d ≠ d2 →
      ∃ e ∈ eps, e.start = b.datetime) :=
  detect_episodes_invariants
    [{ value := 50, datetime := 0 }, { value := (300 : Int), datetime := 5 }] 70 180 (by decide)

/-!  ### Bridging `get_episode_details` to the canonical decomposition  -/

theorem detectSide_low_iff (low high v : Int) (h54 : 54 ≤ low) :
    detectSide low high v = some true ↔ v < low := by
  unfold detectSide detect_classify
  split_ifs <;> simp [EType.lowSide] <;> omega

theorem detectSide_high_iff (low high v : Int) (h54 : 54 ≤ low)
    (hlh : low ≤ high) (h250 : high ≤ 250) :
    detectSide low high v = some false ↔ high < v := by
  unfold detectSide detect_classify
  split_ifs <;> simp [EType.lowSide] <;> omega

theorem foldl_escalate_no_very_high :
    ∀ (vals : List Int), (∀ v ∈ vals, ¬ 250 < v) → ∀ ty,
      vals.foldl escalate ty =
        if vals.any (fun v => decide (v < 54)) then .very_low else ty := by
  intro vals
  induction vals with
  | nil => intro _ ty; simp
  | cons v vs ih =>
    intro hm ty
    have hv : ¬ 250 < v := hm v (by simp)
    simp only [List.foldl_cons, List.any_cons]
    by_cases h54 : v < 54
    · rw [show escalate ty v = .very_low from by simp [escalate, h54]]
      rw [ih (fun w hw => hm w (by simp [hw])) EType.very_low]
      split <;> simp [h54]
    · rw [show escalate ty v = ty from by simp [escalate, h54, hv]]
      rw [ih (fun w hw => hm w (by simp [hw])) ty]
      simp [h54]

theorem foldl_escalate_no_very_low :
    ∀ (vals : List Int), (∀ v ∈ vals, ¬ v < 54) → ∀ ty,
      vals.foldl escalate ty =
        if vals.any (fun v => decide (250 < v)) then .very_high else ty := by
  intro vals
  induction vals with
  | nil => intro _ ty; simp
  | cons v vs ih =>
    intro hm ty
    have hv : ¬ v < 54 := hm v (by simp)
    simp only [List.foldl_cons, List.any_cons]
    by_cases h250 : 250 < v
    · rw [show escalate ty v = .very_high from by simp [escalate, hv, h250]]
      rw [ih (fun w hw => hm w (by simp [hw])) EType.very_high]
      split <;> simp [h250]
    · rw [show escalate ty v = ty from by simp [escalate, hv, h250]]
      rw [ih (fun w hw => hm w (by simp [hw])) ty]
      simp [h250]

theorem details_low_run_type (vals : List Int) (v0 : Int) (h0 : v0 ∈ vals)
    (hm : ∀ v ∈ vals, ¬ 250 < v) :
    vals.foldl escalate (if v0 < 54 then .very_low else .low)
      = runType true vals := by
  rw [foldl_escalate_no_very_high vals hm]
  unfold runType
  by_cases hany : vals.any (fun v => decide (v < 54))
  · simp [hany]
  · have h0' : ¬ v0 < 54 := by
      intro h
      exact hany (List.any_eq_true.mpr ⟨v0, h0, by simp [h]⟩)
    simp [hany, h0']

theorem details_high_run_type (vals : List Int) (v0 : Int) (h0 : v0 ∈ vals)
    (hm : ∀ v ∈ vals, ¬ v < 54) :
    vals.foldl escalate (if 250 < v0 then .very_high else .high)
      = runType false vals := by
  rw [foldl_escalate_no_very_low vals hm]
  unfold runType
  by_cases hany : vals.any (fun v => decide (250 < v))
  · simp [hany]
  · have h0' : ¬ 250 < v0 := by
      intro h
      exact hany (List.any_eq_true.mpr ⟨v0, h0, by simp [h]⟩)
    simp [hany, h0']

theorem details_segments_eq_chunks (low high : Int) (h54 : 54 ≤ low)
    (hlh : low ≤ high) (h250 : high ≤ 250) :
    ∀ (l : List (Nat × (Int × Nat))),
      details_segments low high l =
        (chunksAux (fun q => detectSide low high q.2.1) l none).map
          (fun c => { type := runType c.1 (c.2.map (·.2.1)), is_low := c.1,
                      values := c.2 }) := by
  have hplow : (fun q : Nat × (Int × Nat) =>
      decide (detectSide low high q.2.1 = some true))
      = fun q => decide (q.2.1 < low) :=
    funext fun q => decide_eq_decide.mpr (detectSide_low_iff low high q.2.1 h54)
  have hphigh : (fun q : Nat × (Int × Nat) =>
      decide (detectSide low high q.2.1 = some false))
      = fun q => decide (high < q.2.1) :=
    funext fun q => decide_eq_decide.mpr
      (detectSide_high_iff low high q.2.1 h54 hlh h250)
  intro l
  induction l using details_segments.induct low high with
  | case1 => simp [details_segments, chunksAux]
  | case2 ip rest h1 ih =>
    rw [details_segments]
    rw [if_pos h1]
    have hside : detectSide low high ip.2.1 = some true :=
      (detectSide_low_iff low high ip.2.1 h54).mpr h1
    have hstep : chunksAux (fun q => detectSide low high q.2.1)
        (ip :: rest) none =
        chunksAux (fun q => detectSide low high q.2.1) rest
          (some (true, [ip])) := by
      simp [chunksAux, hside]
    rw [hstep, chunksAux_some, hplow]
    have htake : [ip] ++ rest.takeWhile (fun q => decide (q.2.1 < low))
        = (ip :: rest).takeWhile (fun q => decide (q.2.1 < low)) := by
      rw [List.takeWhile_cons]
      simp [h1]
    have hdrop : rest.dropWhile (fun q => decide (q.2.1 < low))
        = (ip :: rest).dropWhile (fun q => decide (q.2.1 < low)) := by
      rw [List.dropWhile_cons]
      simp [h1]
    rw [List.map_cons, htake, hdrop, ← ih]
    have hty : ((ip :: rest).takeWhile
          (fun q => decide (q.2.1 < low))).foldl
            (fun ty q => escalate ty q.2.1)
            (if ip.2.1 < 54 then .very_low else .low)
        = runType true (((ip :: rest).takeWhile
            (fun q => decide (q.2.1 < low))).map (·.2.1)) := by
      rw [← List.foldl_map]
      refine details_low_run_type _ ip.2.1 ?_ ?_
      · refine List.mem_map_of_mem _ ?_
        rw [List.takeWhile_cons]
        simp [h1]
      · intro v hv
        rcases List.mem_map.mp hv with ⟨q, hq, hqv⟩
        have := List.mem_takeWhile_imp hq
        simp only [decide_eq_true_eq] at this
        omega
    dsimp only []
    rw [hty]
  | case3 ip rest h1 h2 ih =>
    rw [details_segments]
    rw [if_neg h1, if_pos h2]
    have hside : detectSide low high ip.2.1 = some false :=
      (detectSide_high_iff low high ip.2.1 h54 hlh h250).mpr h2
    have hstep : chunksAux (fun q => detectSide low high q.2.1)
        (ip :: rest) none =
        chunksAux (fun q => detectSide low high q.2.1) rest
          (some (false, [ip])) := by
      simp [chunksAux, hside]
    rw [hstep, chunksAux_some, hphigh]
    have htake : [ip] ++ rest.takeWhile (fun q => decide (high < q.2.1))
        = (ip :: rest).takeWhile (fun q => decide (high < q.2.1)) := by
      rw [List.takeWhile_cons]
      simp [h2]
    have hdrop : rest.dropWhile (fun q => decide (high < q.2.1))
        = (ip :: rest).dropWhile (fun q => decide (high < q.2.1)) := by
      rw [List.dropWhile_cons]
      simp [h2]
    rw [List.map_cons, htake, hdrop, ← ih]
    have hty : ((ip :: rest).takeWhile
          (fun q => decide (high < q.2.1))).foldl
            (fun ty q => escalate ty q.2.1)
            (if 250 < ip.2.1 then .very_high else .high)
        = runType false (((ip :: rest).takeWhile
            (fun q => decide (high < q.2.1))).map (·.2.1)) := by
      rw [← List.foldl_map]
      refine details_high_run_type _ ip.2.1 ?_ ?_
      · refine List.mem_map_of_mem _ ?_
        rw [List.takeWhile_cons]
        simp [h2]
      · intro v hv
        rcases List.mem_map.mp hv with ⟨q, hq, hqv⟩
        have := List.mem_takeWhile_imp hq
        simp only [decide_eq_true_eq] at this
        omega
    dsimp only []
    rw [hty]
  | case4 ip rest h1 h2 ih =>
    rw [details_segments]
    rw [if_neg h1, if_neg h2]
    have hside : detectSide low high ip.2.1 = none := by
      unfold detectSide detect_classify
      split_ifs <;> first | rfl | omega
    have hstep : chunksAux (fun q => detectSide low high q.2.1)
        (ip :: rest) none =
        chunksAux (fun q => detectSide low high q.2.1) rest none := by
      simp [chunksAux, hside]
    rw [hstep, ih]

theorem enumFrom_map_snd :
    ∀ (l : List α) (i : Nat), (l.enumFrom i).map Prod.snd = l := by
  intro l
  induction l with
  | nil => intro i; rfl
  | cons a t ih => intro i; simp [List.enumFrom_cons, ih]

theorem enumFrom_map (f : α → β) :
    ∀ (l : List α) (i : Nat),
      (l.map f).enumFrom i = (l.enumFrom i).map (fun p => (p.1, f p.2)) := by
  intro l
  induction l with
  | nil => intro i; rfl
  | cons a t ih => intro i; simp [List.enumFrom_cons, ih]

theorem chunk_proj_pointwise (low high : Int)
    (c : Bool × List (Nat × Reading)) :
    (chunkEpisode (c.1, c.2.map Prod.snd)).core =
      DetailsEpisode.core
        { type := runType c.1
            ((c.2.map (fun p => (p.1, (p.2.value, p.2.datetime)))).map (·.2.1))
          is_low := c.1
          values := c.2.map (fun p => (p.1, (p.2.value, p.2.datetime))) } := by
  obtain ⟨b, run⟩ := c
  unfold chunkEpisode Episode.core DetailsEpisode.core
  simp [List.map_map, List.head?_map, List.getLast?_map, Option.map_map,
    Function.comp_def]

/-- C3 (amended): whenever the thresholds satisfy
`54 ≤ low ≤ high ≤ 250` (in particular for every clinically ordered
threshold set), the episode segmentations computed by `detect_episodes`
and internally by `get_episode_details` agree: same episode list with
identical type, start, end, and member values. -/
theorem detect_details_segmentations_agree (readings : List Reading)
    (low high : Int) (h54 : 54 ≤ low) (hlh : low ≤ high)
    (h250 : high ≤ 250) :
    (detect_segments low high readings).map Episode.core =
      (details_segments low high (detailsPoints readings).enum).map
        DetailsEpisode.core := by
  have hpoints : detailsPoints readings
      = (readings.mergeSort (fun a b => a.datetime ≤ b.datetime)).map
          (fun r => (r.value, r.datetime)) := by
    unfold detailsPoints
    exact (@List.map_mergeSort Reading (Int × Nat)
      (fun a b => decide (a.datetime ≤ b.datetime))
      (fun a b => decide (a.2 ≤ b.2))
      (fun r => (r.value, r.datetime)) readings (fun a _ b _ => rfl)).symm
  rw [detect_segments_eq_chunks,
    details_segments_eq_chunks low high h54 hlh h250, hpoints]
  have henum : ((readings.mergeSort
        (fun a b => a.datetime ≤ b.datetime)).map
          (fun r => (r.value, r.datetime))).enum
      = (readings.mergeSort (fun a b => a.datetime ≤ b.datetime)).enum.map
          (fun p => (p.1, (p.2.value, p.2.datetime))) := by
    unfold List.enum
    exact enumFrom_map _ _ 0
  rw [henum]
  have hm1 := chunksAux_map
    (fun p : Nat × Reading => (p.1, (p.2.value, p.2.datetime)))
    (fun q : Nat × (Int × Nat) => detectSide low high q.2.1)
    (readings.mergeSort (fun a b => a.datetime ≤ b.datetime)).enum none
  simp only [Option.map_none'] at hm1
  rw [hm1]
  have hm2 := chunksAux_map (Prod.snd : Nat × Reading → Reading)
    (fun r : Reading => detectSide low high r.value)
    (readings.mergeSort (fun a b => a.datetime ≤ b.datetime)).enum none
  simp only [Option.map_none'] at hm2
  have hsnd : (readings.mergeSort
      (fun a b => a.datetime ≤ b.datetime)).enum.map Prod.snd
      = readings.mergeSort (fun a b => a.datetime ≤ b.datetime) := by
    unfold List.enum
    exact enumFrom_map_snd _ 0
  rw [hsnd] at hm2
  rw [hm2]
  have hfun : (fun x : Nat × Reading =>
      (fun q : Nat × (Int × Nat) => detectSide low high q.2.1)
        ((fun p : Nat × Reading => (p.1, (p.2.value, p.2.datetime))) x))
      = (fun x : Nat × Reading =>
        (fun r : Reading => detectSide low high r.value) (Prod.snd x)) := rfl
  rw [hfun]
  simp only [List.map_map]
  refine List.map_congr_left (fun c _ => ?_)
  exact chunk_proj_pointwise low high c

/-- C3 (counterexample): with `low = 40` (below the fixed severity bound
54) the two scanners disagree on the single reading 50:
`detect_episodes` classifies `50 < 54` as a very-low episode regardless
of the caller's `low`, while `get_episode_details` sees `50 ≥ low` as in
range and finds no episode at all. -/
theorem c3_threshold_counterexample :
    (detect_segments 40 180 [{ value := 50, datetime := 0 }]).map
        Episode.core ≠
      (details_segments 40 180
          (detailsPoints [{ value := 50, datetime := 0 }]).enum).map
        DetailsEpisode.core := by
  have h1 : detect_segments 40 180 [{ value := 50, datetime := 0 }] =
      [{ type := .very_low, start := 0, stop := 0, values := [50],
         ongoing := true }] := by
    unfold detect_segments
    rw [List.mergeSort_singleton]
    rfl
  have hp : detailsPoints [{ value := 50, datetime := 0 }]
      = [((50 : Int), (0 : Nat))] := by
    unfold detailsPoints
    simp
  have h2 : details_segments 40 180
      (detailsPoints [{ value := 50, datetime := 0 }]).enum = [] := by
    rw [hp]
    simp [List.enum, List.enumFrom, details_segments]
  rw [h1, h2]
  simp

/-- C3 (witness): the agreeing segmentations at the default clinical
thresholds on a concrete reading. -/
theorem detect_details_segmentations_agree_witness :
    (detect_segments 70 180 [{ value := 50, datetime := 0 }]).map
        Episode.core =
      (details_segments 70 180
          (detailsPoints [{ value := 50, datetime := 0 }]).enum).map
        DetailsEpisode.core :=
  detect_details_segmentations_agree [{ value := 50, datetime := 0 }] 70 180
    (by decide) (by decide) (by decide)

end Dexcom
